import Mathlib

/-!
Shallow embedding of the crypto-exchange simulator's core subsystems
(matching engine, order book, accounts, client sequence tracker, server
rate limiter, message router, market-data ticker assembly), together with
theorems settling the specification claims against the code.

Conventions of the embedding:
* Python `Decimal` values are embedded as `ℚ` (Decimal arithmetic on the
  operations used — add, sub, mul, div, min, comparisons — is exact, so ℚ
  is a faithful model).
* Python dicts are embedded as insertion-ordered association lists with
  replace-in-place update, matching dict semantics.
* `uuid.uuid4()` draws are embedded as a deterministic fresh-id counter
  threaded through the engine state; no claim depends on id values.
* Mutation of shared `Order` objects (the same object is referenced by
  `_all_orders`, the book's index and a price level) is embedded by
  storing orders once in the engine's `_all_orders` store and letting the
  book's levels hold order ids.
* Wall-clock timestamp fields (`created_at`, `updated_at`, message
  timestamps) are omitted: no claim refers to them.
-/

namespace CryptoExchangeSim

/-- Association-list lookup (first binding wins), embedding Python dict lookup. -/
def alistFind? {α β : Type} [DecidableEq α] : List (α × β) → α → Option β
  | [], _ => none
  | (k', v) :: rest, k => if k' = k then some v else alistFind? rest k

/-- Association-list update: replace the first binding in place, else append.
This matches Python dict assignment, which preserves insertion order. -/
def alistInsert {α β : Type} [DecidableEq α] : List (α × β) → α → β → List (α × β)
  | [], k, v => [(k, v)]
  | (k', v') :: rest, k, v =>
    if k' = k then (k, v) :: rest else (k', v') :: alistInsert rest k v

/-- Association-list deletion of the first binding, embedding Python `del d[k]` / `d.pop(k)`. -/
def alistErase {α β : Type} [DecidableEq α] : List (α × β) → α → List (α × β)
  | [], _ => []
  | (k', v') :: rest, k =>
    if k' = k then rest else (k', v') :: alistErase rest k

/-- Order side enumeration (models/orders.py `OrderSide`). -/
inductive OrderSide where
  | BUY
  | SELL
deriving DecidableEq, Repr

/-- Order type enumeration (models/orders.py `OrderType`). -/
inductive OrderType where
  | LIMIT
  | MARKET
deriving DecidableEq, Repr

/-- Order status enumeration (models/orders.py `OrderStatus`). -/
inductive OrderStatus where
  | PENDING
  | OPEN
  | PARTIALLY_FILLED
  | FILLED
  | CANCELLED
  | REJECTED
deriving DecidableEq, Repr

/-- Time in force enumeration (models/orders.py `TimeInForce`). -/
inductive TimeInForce where
  | GTC
  | IOC
  | FOK
deriving DecidableEq, Repr

/-- An order (models/orders.py `Order`); timestamps omitted. -/
structure Order where
  order_id : String
  session_id : String
  symbol : String
  side : OrderSide
  order_type : OrderType
  price : Option ℚ
  quantity : ℚ
  filled_quantity : ℚ := 0
  status : OrderStatus := .PENDING
  time_in_force : TimeInForce := .GTC
deriving DecidableEq, Repr

/-- `Order.remaining_quantity` property: `quantity - filled_quantity`. -/
def Order.remaining_quantity (o : Order) : ℚ :=
  o.quantity - o.filled_quantity

/-- `Order.is_filled` property: `filled_quantity >= quantity`. -/
def Order.is_filled (o : Order) : Bool :=
  o.quantity ≤ o.filled_quantity

/-- `Order.fill(quantity)`. The source raises `ValueError` when
`quantity <= 0` or `quantity > remaining`; both call sites
(`_execute_fill`) establish `0 < quantity ≤ remaining` before calling, so
only the non-raising path is embedded. -/
def Order.fill (o : Order) (q : ℚ) : Order :=
  let o' : Order := { o with filled_quantity := o.filled_quantity + q }
  if o'.is_filled then { o' with status := .FILLED }
  else if 0 < o'.filled_quantity then { o' with status := .PARTIALLY_FILLED }
  else o'

/-- `Order.cancel()`. The source raises when the status is already FILLED
or CANCELLED; every engine call site guards on a cancellable status, so
only the non-raising path is embedded. -/
def Order.cancel (o : Order) : Order :=
  { o with status := .CANCELLED }

/-- `Order.reject()`: unconditionally sets REJECTED. -/
def Order.reject (o : Order) : Order :=
  { o with status := .REJECTED }

/-- A fill (models/orders.py `Fill`); timestamp omitted. -/
structure Fill where
  fill_id : String
  order_id : String
  session_id : String
  symbol : String
  side : OrderSide
  price : ℚ
  quantity : ℚ
  is_maker : Bool := false
deriving DecidableEq, Repr

/-- A position (models/orders.py `Position`). -/
structure Position where
  symbol : String
  quantity : ℚ := 0
  average_price : ℚ := 0
  realized_pnl : ℚ := 0
  unrealized_pnl : ℚ := 0
deriving DecidableEq, Repr

/-- `Position.update_on_fill(fill)`, translated clause by clause from the source. -/
def Position.update_on_fill (p : Position) (f : Fill) : Position :=
  let fill_qty : ℚ := if f.side = .BUY then f.quantity else -f.quantity
  let p1 : Position :=
    if (0 < p.quantity ∧ fill_qty < 0) ∨ (p.quantity < 0 ∧ 0 < fill_qty) then
      let closing_qty := min |fill_qty| |p.quantity|
      { p with realized_pnl :=
          p.realized_pnl + closing_qty * (f.price - p.average_price) *
            (if 0 < p.quantity then 1 else -1) }
    else p
  let old_qty := p1.quantity
  let new_qty := p1.quantity + fill_qty
  let p2 : Position :=
    if (0 ≤ old_qty ∧ old_qty < new_qty) ∨ (old_qty ≤ 0 ∧ new_qty < old_qty) ∨
        (old_qty * new_qty < 0) then
      if new_qty ≠ 0 then
        if old_qty * new_qty ≤ 0 then { p1 with average_price := f.price }
        else
          { p1 with average_price :=
              (|old_qty| * p1.average_price + |fill_qty| * f.price) / |new_qty| }
      else p1
    else p1
  { p2 with quantity := new_qty }

/-- `Position.calculate_unrealized_pnl(current_price)` (also stores the result). -/
def Position.calculate_unrealized_pnl (p : Position) (current_price : ℚ) : Position :=
  if p.quantity = 0 then { p with unrealized_pnl := 0 }
  else { p with unrealized_pnl := p.quantity * (current_price - p.average_price) }

/-- A trading account (engine/accounts.py `Account`); the unused margin fields are omitted. -/
structure Account where
  session_id : String
  balances : List (String × ℚ) := []
  positions : List (String × Position) := []
deriving DecidableEq, Repr

/-- `Account.get_balance(currency)`: balance or 0. -/
def Account.get_balance (a : Account) (currency : String) : ℚ :=
  (alistFind? a.balances currency).getD 0

/-- `Account.has_sufficient_balance(currency, amount)`. -/
def Account.has_sufficient_balance (a : Account) (currency : String) (amount : ℚ) : Bool :=
  amount ≤ a.get_balance currency

/-- `Account.update_position_on_fill(fill, current_price)`: get or create the
symbol's position, update it on the fill, recompute unrealized PnL. -/
def Account.update_position_on_fill (a : Account) (f : Fill) (current_price : ℚ) : Account :=
  let pos := (alistFind? a.positions f.symbol).getD { symbol := f.symbol }
  let pos := (pos.update_on_fill f).calculate_unrealized_pnl current_price
  { a with positions := alistInsert a.positions f.symbol pos }

/-- The account manager (engine/accounts.py `AccountManager`). -/
structure AccountManager where
  _accounts : List (String × Account) := []
  _default_balance : List (String × ℚ) := [("USD", 100000)]
deriving DecidableEq, Repr

/-- `AccountManager.get_account(session_id)`. -/
def AccountManager.get_account (m : AccountManager) (session_id : String) : Option Account :=
  alistFind? m._accounts session_id

/-- `AccountManager.get_or_create_account(session_id)`: existing account, or a
fresh one initialized with a copy of the default balance. Returns the updated
manager together with the account. -/
def AccountManager.get_or_create_account (m : AccountManager) (session_id : String) :
    AccountManager × Account :=
  match alistFind? m._accounts session_id with
  | some a => (m, a)
  | none =>
    let a : Account := { session_id := session_id, balances := m._default_balance }
    ({ m with _accounts := alistInsert m._accounts session_id a }, a)

/-- A price level (engine/orderbook.py `PriceLevel`). The source keeps a FIFO
list of `Order` objects aliased into the engine's global order map; the
embedding keeps their ids, to be resolved in the engine's `_all_orders` store.
`total_quantity` is the source's stored running sum — it is a mutable field,
not a derived value. -/
structure PriceLevel where
  price : ℚ
  orders : List String := []
  total_quantity : ℚ := 0
deriving DecidableEq, Repr

/-- Remaining quantity of an order id under a store; dangling ids (which the
source cannot produce, since levels hold the objects themselves) count 0. -/
def storeRemaining (store : List (String × Order)) (oid : String) : ℚ :=
  match alistFind? store oid with
  | some o => o.remaining_quantity
  | none => 0

/-- Sum of remaining quantities of a list of order ids under a store. -/
def sumRemaining (store : List (String × Order)) (ids : List String) : ℚ :=
  (ids.map (storeRemaining store)).sum

/-- `PriceLevel.add_order(order)`: append to the FIFO and add the order's
remaining quantity to the running sum. -/
def PriceLevel.add_order (lvl : PriceLevel) (o : Order) : PriceLevel :=
  { lvl with
    orders := lvl.orders ++ [o.order_id],
    total_quantity := lvl.total_quantity + o.remaining_quantity }

/-- `PriceLevel.remove_order(order)`: remove the first occurrence and
recompute the sum from the remaining orders; absent order is a no-op
(the source catches the `ValueError` and returns False). -/
def PriceLevel.remove_order (lvl : PriceLevel) (store : List (String × Order))
    (oid : String) : PriceLevel :=
  if lvl.orders.contains oid then
    let rest := lvl.orders.erase oid
    { lvl with orders := rest, total_quantity := sumRemaining store rest }
  else lvl

/-- `PriceLevel.is_empty()`. -/
def PriceLevel.is_empty (lvl : PriceLevel) : Bool :=
  lvl.orders.isEmpty

/-- An order book (engine/orderbook.py `OrderBook`). The source keeps a dict
from price to `PriceLevel` plus a sorted price list per side; the embedding
merges the two into one price-sorted list of levels per side (bids descending,
asks ascending). `_orders` is the book's flat id index (the source maps the id
to the shared `Order` object; the object state lives in the engine store). -/
structure OrderBook where
  symbol : String
  bids : List PriceLevel := []
  asks : List PriceLevel := []
  _orders : List String := []
deriving DecidableEq, Repr

/-- Insert an order into an ascending-sorted level list (the asks side):
reuse the level with equal price, else create a new level in sorted position. -/
def insertLevelAsc (lvls : List PriceLevel) (o : Order) (p : ℚ) : List PriceLevel :=
  match lvls with
  | [] => [PriceLevel.add_order { price := p } o]
  | lvl :: rest =>
    if lvl.price = p then lvl.add_order o :: rest
    else if p < lvl.price then PriceLevel.add_order { price := p } o :: lvl :: rest
    else lvl :: insertLevelAsc rest o p

/-- Insert an order into a descending-sorted level list (the bids side). -/
def insertLevelDesc (lvls : List PriceLevel) (o : Order) (p : ℚ) : List PriceLevel :=
  match lvls with
  | [] => [PriceLevel.add_order { price := p } o]
  | lvl :: rest =>
    if lvl.price = p then lvl.add_order o :: rest
    else if lvl.price < p then PriceLevel.add_order { price := p } o :: lvl :: rest
    else lvl :: insertLevelDesc rest o p

/-- `OrderBook.add_order(order)`. The source raises on a symbol mismatch or a
missing price; the engine only calls it for LIMIT orders of the book's own
symbol, so only the non-raising path is embedded (a price-less order leaves
the book unchanged). -/
def OrderBook.add_order (ob : OrderBook) (o : Order) : OrderBook :=
  match o.price with
  | none => ob
  | some p =>
    let ob := { ob with _orders := ob._orders ++ [o.order_id] }
    match o.side with
    | .BUY => { ob with bids := insertLevelDesc ob.bids o p }
    | .SELL => { ob with asks := insertLevelAsc ob.asks o p }

/-- Remove an order id from the level with the given price; drop the level if
it becomes empty (the source also deletes the price from the sorted list). -/
def removeFromLevels (lvls : List PriceLevel) (store : List (String × Order))
    (p : ℚ) (oid : String) : List PriceLevel :=
  match lvls with
  | [] => []
  | lvl :: rest =>
    if lvl.price = p then
      let lvl' := lvl.remove_order store oid
      if lvl'.is_empty then rest else lvl' :: rest
    else lvl :: removeFromLevels rest store p oid

/-- `OrderBook.remove_order(order_id)`: pop the id from the book's index;
if it was present and priced, remove it from its side's level. Returns the
removed order (resolved in the store), mirroring the source's return value. -/
def OrderBook.remove_order (ob : OrderBook) (store : List (String × Order))
    (oid : String) : OrderBook × Option Order :=
  if ob._orders.contains oid then
    let ob := { ob with _orders := ob._orders.erase oid }
    match alistFind? store oid with
    | none => (ob, none)
    | some o =>
      match o.price with
      | none => (ob, none)
      | some p =>
        match o.side with
        | .BUY => ({ ob with bids := removeFromLevels ob.bids store p oid }, some o)
        | .SELL => ({ ob with asks := removeFromLevels ob.asks store p oid }, some o)
  else (ob, none)

/-- `OrderBook.get_best_bid()`: highest bid price, the head of the descending list. -/
def OrderBook.get_best_bid (ob : OrderBook) : Option ℚ :=
  ob.bids.head?.map PriceLevel.price

/-- `OrderBook.get_best_ask()`: lowest ask price, the head of the ascending list. -/
def OrderBook.get_best_ask (ob : OrderBook) : Option ℚ :=
  ob.asks.head?.map PriceLevel.price

/-- `OrderBook.get_depth(levels)`: per side, the first `levels` levels as
(price, stored total quantity) pairs. -/
def OrderBook.get_depth (ob : OrderBook) (levels : Nat := 10) :
    List (ℚ × ℚ) × List (ℚ × ℚ) :=
  ((ob.bids.take levels).map fun lvl => (lvl.price, lvl.total_quantity),
   (ob.asks.take levels).map fun lvl => (lvl.price, lvl.total_quantity))

/-- The exchange engine state (engine/exchange.py `ExchangeEngine`).
`_all_orders` is the single store of order state: the source's books and
levels alias the very objects kept here, so the embedding resolves the
ids held by book levels in this store. `next_uuid` models the `uuid4()`
draws as a fresh-id counter. -/
structure ExchangeEngine where
  symbols : List String
  orderbooks : List (String × OrderBook)
  account_manager : AccountManager
  _all_orders : List (String × Order) := []
  _fills : List Fill := []
  _last_prices : List (String × ℚ) := []
  next_uuid : Nat := 0
deriving DecidableEq, Repr

/-- Engine construction: one empty book per symbol. -/
def ExchangeEngine.init (symbols : List String) (am : AccountManager := {}) : ExchangeEngine :=
  { symbols := symbols,
    orderbooks := symbols.map fun s => (s, { symbol := s }),
    account_manager := am }

/-- A fresh id, embedding a `uuid.uuid4()` draw. -/
def ExchangeEngine.fresh (st : ExchangeEngine) : String × ExchangeEngine :=
  ("uuid-" ++ toString st.next_uuid, { st with next_uuid := st.next_uuid + 1 })

/-- `ExchangeEngine._validate_order_balance(order, account)`: only BUY orders
that carry a price are checked, against the USD balance. -/
def ExchangeEngine.validate_order_balance (order : Order) (account : Account) : Bool :=
  match order.side, order.price with
  | .BUY, some p => account.has_sufficient_balance "USD" (p * order.quantity)
  | _, _ => true

/-- Read a symbol's book (`self.orderbooks[symbol]`); the engine only indexes
symbols it created books for, so the default empty book is unreachable. -/
def ExchangeEngine.book (st : ExchangeEngine) (symbol : String) : OrderBook :=
  (alistFind? st.orderbooks symbol).getD { symbol := symbol }

/-- Store a symbol's book back. -/
def ExchangeEngine.setBook (st : ExchangeEngine) (symbol : String) (ob : OrderBook) :
    ExchangeEngine :=
  { st with orderbooks := alistInsert st.orderbooks symbol ob }

/-- Store an order (a mutation of the shared object, visible through
`_all_orders` and every book structure that references the id). -/
def ExchangeEngine.putOrder (st : ExchangeEngine) (o : Order) : ExchangeEngine :=
  { st with _all_orders := alistInsert st._all_orders o.order_id o }

/-- `ExchangeEngine._execute_fill(taker_order, maker_order, price)`.
The taker order is threaded by value (and synced into the store, where the
source mutates the shared object); the maker is resolved by id. Produces the
taker-side fill, appends both taker- and maker-side fills to `_fills`,
updates the last price and both accounts' positions. -/
def ExchangeEngine.execute_fill (st : ExchangeEngine) (taker : Order)
    (maker_id : String) (price : ℚ) : ExchangeEngine × Order × Option Fill :=
  match alistFind? st._all_orders maker_id with
  | none => (st, taker, none)
  | some maker =>
    let fill_qty := min taker.remaining_quantity maker.remaining_quantity
    if fill_qty ≤ 0 then (st, taker, none)
    else
      let taker' := taker.fill fill_qty
      let maker' := maker.fill fill_qty
      let st := (st.putOrder taker').putOrder maker'
      let st := { st with _last_prices := alistInsert st._last_prices taker.symbol price }
      let fid1 := st.fresh.1
      let st := st.fresh.2
      let fill : Fill :=
        { fill_id := fid1, order_id := taker.order_id, session_id := taker.session_id,
          symbol := taker.symbol, side := taker.side, price := price,
          quantity := fill_qty, is_maker := false }
      let st := { st with _fills := st._fills ++ [fill] }
      let st :=
        match st.account_manager.get_account taker.session_id with
        | some acct =>
          { st with account_manager :=
              { st.account_manager with
                _accounts := alistInsert st.account_manager._accounts taker.session_id
                  (acct.update_position_on_fill fill price) } }
        | none => st
      let fid2 := st.fresh.1
      let st := st.fresh.2
      let maker_fill : Fill :=
        { fill_id := fid2, order_id := maker.order_id, session_id := maker.session_id,
          symbol := maker.symbol, side := maker.side, price := price,
          quantity := fill_qty, is_maker := true }
      let st := { st with _fills := st._fills ++ [maker_fill] }
      let st :=
        match st.account_manager.get_account maker.session_id with
        | some acct =>
          { st with account_manager :=
              { st.account_manager with
                _accounts := alistInsert st.account_manager._accounts maker.session_id
                  (acct.update_position_on_fill maker_fill price) } }
        | none => st
      (st, taker', some fill)

/-- One side's matching guard: for a BUY taker the best ask is unacceptable
when the order is a priced LIMIT and `best_ask > price`; symmetrically a SELL
taker rejects `best_bid < price`. -/
def priceUnacceptable (o : Order) (best : ℚ) : Bool :=
  match o.order_type, o.price with
  | .LIMIT, some p => if o.side = .BUY then p < best else best < p
  | _, _ => false

/-- The body of `ExchangeEngine._match_order`'s while loop, with explicit
fuel (the source's loop terminates because every iteration either empties the
taker or removes a maker from the book; `place_order` passes enough fuel).
Both side branches of the source are mirrored through `priceUnacceptable` and
the side-selected level list. -/
def ExchangeEngine.match_loop (st : ExchangeEngine) (taker : Order)
    (fills : List Fill) : Nat → ExchangeEngine × Order × List Fill
  | 0 => (st, taker, fills)
  | fuel + 1 =>
    if taker.remaining_quantity ≤ 0 then (st, taker, fills)
    else
      let ob := st.book taker.symbol
      let bestLevels := if taker.side = .BUY then ob.asks else ob.bids
      match bestLevels with
      | [] => (st, taker, fills)
      | lvl :: _ =>
        if priceUnacceptable taker lvl.price then (st, taker, fills)
        else if lvl.is_empty then (st, taker, fills)
        else
          match lvl.orders with
          | [] => (st, taker, fills)
          | maker_id :: _ =>
            let r := st.execute_fill taker maker_id lvl.price
            let st := r.1
            let taker := r.2.1
            let fills := match r.2.2 with
              | some f => fills ++ [f]
              | none => fills
            let st :=
              match alistFind? st._all_orders maker_id with
              | some maker =>
                if maker.is_filled then
                  st.setBook taker.symbol
                    ((st.book taker.symbol).remove_order st._all_orders maker_id).1
                else st
              | none => st
            st.match_loop taker fills fuel

/-- The post-matching time-in-force block of `place_order`: a LIMIT order
with remaining quantity is IOC-cancelled, FOK-rejected with the returned
fill list cleared (the source's comment: "in real system would prevent
fills"), or added to the book; anything else is returned as is. -/
def ExchangeEngine.apply_tif (st : ExchangeEngine) (order : Order)
    (fills : List Fill) (order_type : OrderType) (symbol : String)
    (time_in_force : TimeInForce) : ExchangeEngine × Order × List Fill :=
  if 0 < order.remaining_quantity ∧ order_type = .LIMIT then
    if time_in_force = .IOC then
      let order := order.cancel
      (st.putOrder order, order, fills)
    else if time_in_force = .FOK ∧ ¬ order.is_filled then
      let order := order.reject
      (st.putOrder order, order, [])
    else
      (st.setBook symbol ((st.book symbol).add_order order), order, fills)
  else (st, order, fills)

/-- `ExchangeEngine.place_order(...)`. Returns the updated engine state
together with either the (order, fills) pair, or the error the source raises
(`ValueError` for an unknown symbol or insufficient balance, a pydantic
`ValidationError` for invalid order parameters). State mutated before a raise
stays mutated, as in the source. -/
def ExchangeEngine.place_order (st : ExchangeEngine) (session_id symbol : String)
    (side : OrderSide) (order_type : OrderType) (quantity : ℚ)
    (price : Option ℚ := none) (time_in_force : TimeInForce := .GTC) :
    ExchangeEngine × Except String (Order × List Fill) :=
  if symbol ∉ st.symbols then (st, .error "Unknown symbol") else
  let order_id := st.fresh.1
  let st := st.fresh.2
  -- pydantic validation on the `Order(...)` construction: quantity must be
  -- positive, a LIMIT order requires a price, a given price must be positive.
  if quantity ≤ 0 then (st, .error "Quantity must be positive") else
  if order_type = .LIMIT ∧ price = none then (st, .error "Price is required for LIMIT orders") else
  if (match price with | some p => decide (p ≤ 0) | none => false : Bool) then
    (st, .error "Price must be positive") else
  let order : Order :=
    { order_id := order_id, session_id := session_id, symbol := symbol,
      side := side, order_type := order_type, price := price,
      quantity := quantity, time_in_force := time_in_force }
  let goc := st.account_manager.get_or_create_account session_id
  let account := goc.2
  let st := { st with account_manager := goc.1 }
  if ¬ ExchangeEngine.validate_order_balance order account then
    let order := order.reject
    (st.putOrder order, .error "Insufficient balance")
  else
    let order : Order := { order with status := .OPEN }
    let st := st.putOrder order
    let fuel := (st.book symbol)._orders.length + 1
    let m := st.match_loop order [] fuel
    let t := ExchangeEngine.apply_tif m.1 m.2.1 m.2.2 order_type symbol time_in_force
    (t.1, .ok (t.2.1, t.2.2))

/-- `ExchangeEngine.get_order(session_id, order_id)`: the order, only when it
exists and belongs to the requesting session. -/
def ExchangeEngine.get_order (st : ExchangeEngine) (session_id order_id : String) :
    Option Order :=
  match alistFind? st._all_orders order_id with
  | some o => if o.session_id = session_id then some o else none
  | none => none

/-- `ExchangeEngine.cancel_order(session_id, order_id)`: owner-scoped; fails
on unknown id, foreign session, or a non-cancellable status; removes a priced
order from its book and sets CANCELLED. -/
def ExchangeEngine.cancel_order (st : ExchangeEngine) (session_id order_id : String) :
    ExchangeEngine × Except String Order :=
  match alistFind? st._all_orders order_id with
  | none => (st, .error "Order not found")
  | some order =>
    if order.session_id ≠ session_id then
      (st, .error "Order does not belong to this session")
    else if order.status ≠ .OPEN ∧ order.status ≠ .PARTIALLY_FILLED then
      (st, .error "Cannot cancel order with this status")
    else
      let st :=
        if order.price ≠ none then
          st.setBook order.symbol
            ((st.book order.symbol).remove_order st._all_orders order_id).1
        else st
      let order := order.cancel
      (st.putOrder order, .ok order)

/-- `ExchangeEngine.get_last_price(symbol)`. -/
def ExchangeEngine.get_last_price (st : ExchangeEngine) (symbol : String) : Option ℚ :=
  alistFind? st._last_prices symbol

/-- A detected sequence gap (client/network/sequence_tracker.py `Gap`). -/
structure Gap where
  channel : String
  symbol : String
  start_seq : Int
  end_seq : Int
deriving DecidableEq, Repr

/-- Client-side sequence tracker state (client/network/sequence_tracker.py
`SequenceTracker`): next expected id per (channel, symbol), defaulting to 1. -/
structure SequenceTracker where
  _expected_sequences : List ((String × String) × Int) := []
deriving DecidableEq, Repr

/-- `SequenceTracker.get_expected(channel, symbol)`. -/
def SequenceTracker.get_expected (t : SequenceTracker) (channel symbol : String) : Int :=
  (alistFind? t._expected_sequences (channel, symbol)).getD 1

/-- `SequenceTracker.update(channel, symbol, sequence_id)`: below the
expectation is ignored; above it reports the gap [expected, seq-1] and
advances to seq+1; equal advances to seq+1 with no gap. -/
def SequenceTracker.update (t : SequenceTracker) (channel symbol : String)
    (sequence_id : Int) : SequenceTracker × Option Gap :=
  let key := (channel, symbol)
  let expected := (alistFind? t._expected_sequences key).getD 1
  if sequence_id < expected then (t, none)
  else if expected < sequence_id then
    ({ t with _expected_sequences :=
        alistInsert t._expected_sequences key (sequence_id + 1) },
      some { channel := channel, symbol := symbol,
             start_seq := expected, end_seq := sequence_id - 1 })
  else
    ({ t with _expected_sequences :=
        alistInsert t._expected_sequences key (sequence_id + 1) }, none)

/-- Feed a list of sequence ids for one (channel, symbol) pair, collecting the
reported gaps in order. -/
def SequenceTracker.feed (t : SequenceTracker) (channel symbol : String) :
    List Int → SequenceTracker × List Gap
  | [] => (t, [])
  | s :: rest =>
    let (t, g?) := t.update channel symbol s
    let (t, gs) := t.feed channel symbol rest
    (t, (match g? with | some g => [g] | none => []) ++ gs)

/-- Server-side rate limiter configuration (failures/strategies.py
`RateLimitStrategy` constructor arguments). The pluggable volume detector is
embedded by the multiplier value its `get_volume_multiplier()` returns
(the default `HardcodedVolumeDetector` yields 1.0, or 0.5 in high volume). -/
structure RateLimitConfig where
  baseline_rps : Int := 10
  wait_period_seconds : Int := 10
  second_violation_ban_seconds : Int := 60
  violation_window_seconds : Int := 60
  volume_multiplier : ℚ := 1
deriving DecidableEq, Repr

/-- Per-session mutable state of `RateLimitStrategy`. Timestamps are rational
seconds. A session's request deque is stored with its `maxlen` (fixed at
session creation as twice the then-current limit). Ban entries are expiry
times; expired entries are deleted on the next check, as in the source. -/
structure RateLimitState where
  _session_requests : List (String × (List ℚ × Nat)) := []
  _session_violations : List (String × List ℚ) := []
  _session_bans : List (String × ℚ) := []
  _permanent_bans : List String := []
deriving DecidableEq, Repr

/-- `RateLimitStrategy._get_current_limit()`: `max(1, int(baseline_rps * multiplier))`. -/
def RateLimitConfig.current_limit (cfg : RateLimitConfig) : Int :=
  max 1 ⌊(cfg.baseline_rps : ℚ) * cfg.volume_multiplier⌋

/-- Append to a deque with a maxlen: a full deque drops its oldest entry. -/
def dequeAppend (xs : List ℚ) (maxlen : Nat) (x : ℚ) : List ℚ :=
  if xs.length ≥ maxlen then xs.tail ++ [x] else xs ++ [x]

/-- The sliding-window and escalation part of `_check_rate_limit`, reached
when the session is not (any longer) banned. -/
def RateLimitConfig.check_window (cfg : RateLimitConfig) (st : RateLimitState)
    (session_id : String) (current_time : ℚ) :
    RateLimitState × Bool × Option String × Option Int :=
  let current_limit := cfg.current_limit
  let stEntry :=
    match alistFind? st._session_requests session_id with
    | some e => (st, e)
    | none =>
      let e : List ℚ × Nat := ([], (current_limit * 2).toNat)
      ({ st with
          _session_requests := alistInsert st._session_requests session_id e,
          _session_violations := alistInsert st._session_violations session_id [] }, e)
  let st := stEntry.1
  let request_times := stEntry.2.1.dropWhile (fun ts => ts < current_time - 1)
  let maxlen := stEntry.2.2
  if (request_times.length : Int) ≥ current_limit then
    let violations := (alistFind? st._session_violations session_id).getD []
    let violations := violations ++ [current_time]
    let window_start := current_time - cfg.violation_window_seconds
    let violations := violations.filter (fun v => window_start < v)
    let st := { st with
      _session_requests := alistInsert st._session_requests session_id (request_times, maxlen),
      _session_violations := alistInsert st._session_violations session_id violations }
    let violation_count := violations.length
    if violation_count ≥ 3 then
      ({ st with _permanent_bans := st._permanent_bans ++ [session_id] },
        false, some "Account permanently banned due to repeated rate limit violations", none)
    else if violation_count ≥ 2 then
      let bans := alistInsert st._session_bans session_id
        (current_time + cfg.second_violation_ban_seconds)
      ({ st with _session_bans := bans },
        false, some "Rate limit exceeded. Account temporarily banned",
        some cfg.second_violation_ban_seconds)
    else
      let bans := alistInsert st._session_bans session_id
        (current_time + cfg.wait_period_seconds)
      ({ st with _session_bans := bans },
        false, some "Rate limit exceeded", some cfg.wait_period_seconds)
  else
    ({ st with
        _session_requests := alistInsert st._session_requests session_id
          (dequeAppend request_times maxlen current_time, maxlen),
        _session_violations :=
          match alistFind? st._session_violations session_id with
          | some v => alistInsert st._session_violations session_id v
          | none => st._session_violations },
      true, none, none)

/-- The outcome of one `_check_rate_limit` call:
(new state, allowed, error message, retry_after seconds). -/
def RateLimitConfig.check_rate_limit (cfg : RateLimitConfig) (st : RateLimitState)
    (session_id : String) (current_time : ℚ) :
    RateLimitState × Bool × Option String × Option Int :=
  if st._permanent_bans.contains session_id then
    (st, false, some "Account permanently banned due to repeated rate limit violations", none)
  else
    match alistFind? st._session_bans session_id with
    | some ban_expiry =>
      if current_time < ban_expiry then
        let retry_after := ⌊ban_expiry - current_time⌋ + 1
        (st, false, some "Rate limit exceeded. Account temporarily banned", some retry_after)
      else
        -- the ban has expired: delete it and fall through to the window check
        cfg.check_window
          { st with _session_bans := alistErase st._session_bans session_id }
          session_id current_time
    | none => cfg.check_window st session_id current_time

/-- The REST rejection surface (rest_api.py `RateLimiter.check_rate_limit`):
a denied request raises 429 whose `Retry-After` header is present exactly when
`retry_after` was produced. -/
def restRetryAfterHeader (retry_after : Option Int) : Option String :=
  retry_after.map toString

/-- Streaming message kinds (models/messages.py `MessageType`). -/
inductive MessageType where
  | PLACE_ORDER
  | CANCEL_ORDER
  | GET_ORDER
  | GET_ORDERS
  | GET_BALANCE
  | GET_POSITION
  | SUBSCRIBE
  | UNSUBSCRIBE
  | PING
  | ORDER_ACK
  | ORDER_FILL
  | ORDER_CANCEL
  | ORDER_REJECT
  | BALANCE_UPDATE
  | POSITION_UPDATE
  | MARKET_DATA
  | ORDERBOOK_UPDATE
  | TRADE
  | PONG
  | ERROR
deriving DecidableEq, Repr

/-- Printable name of a message type (the enum's string value). -/
def MessageType.name : MessageType → String
  | .PLACE_ORDER => "PLACE_ORDER"
  | .CANCEL_ORDER => "CANCEL_ORDER"
  | .GET_ORDER => "GET_ORDER"
  | .GET_ORDERS => "GET_ORDERS"
  | .GET_BALANCE => "GET_BALANCE"
  | .GET_POSITION => "GET_POSITION"
  | .SUBSCRIBE => "SUBSCRIBE"
  | .UNSUBSCRIBE => "UNSUBSCRIBE"
  | .PING => "PING"
  | .ORDER_ACK => "ORDER_ACK"
  | .ORDER_FILL => "ORDER_FILL"
  | .ORDER_CANCEL => "ORDER_CANCEL"
  | .ORDER_REJECT => "ORDER_REJECT"
  | .BALANCE_UPDATE => "BALANCE_UPDATE"
  | .POSITION_UPDATE => "POSITION_UPDATE"
  | .MARKET_DATA => "MARKET_DATA"
  | .ORDERBOOK_UPDATE => "ORDERBOOK_UPDATE"
  | .TRADE => "TRADE"
  | .PONG => "PONG"
  | .ERROR => "ERROR"

/-- A parsed inbound streaming frame, reduced to the parts routing inspects:
its type and its correlation `request_id`. A frame whose raw JSON parses and
validates (e.g. a PING carrying a request_id) reaches dispatch in this form. -/
structure InboundMessage where
  type : MessageType
  request_id : Option String := none
deriving DecidableEq, Repr

/-- An outbound reply as produced by routing: a PONG carrying a correlation
id, or a structured error, or a reply produced by a business handler
(opaque here — no claim inspects those). -/
inductive Reply where
  | pong (request_id : Option String)
  | error (code : String) (message : String)
  | handlerReply (tag : String)
deriving DecidableEq, Repr

/-- handlers/heartbeat.py `HeartbeatHandler.handle`: a PING (the only parsed
message type the isinstance check accepts) produces a PONG with the same
request_id; anything else an UNKNOWN_MESSAGE error. -/
def HeartbeatHandler.handle (message : InboundMessage) : Option Reply :=
  if message.type = .PING then some (.pong message.request_id)
  else some (.error "UNKNOWN_MESSAGE" "Unknown message type")

/-- The handlers the server registers at startup (server.py
`_register_handlers`): the order handler for the four order message types
and the subscription handler for the two subscription types — and nothing
else. The table is keyed by message type; the registered handler is kept
abstract as a dispatch function (its internals decide no claim here). -/
inductive HandlerTag where
  | order
  | subscription
deriving DecidableEq, Repr

/-- The server's handler registration table, in registration order. -/
def serverHandlers : List (MessageType × HandlerTag) :=
  [(.PLACE_ORDER, .order), (.CANCEL_ORDER, .order), (.GET_ORDER, .order),
   (.GET_ORDERS, .order), (.SUBSCRIBE, .subscription), (.UNSUBSCRIBE, .subscription)]

/-- `MessageRouter.route` after a successful parse: look the message type up
in the handler table; a missing handler yields the NO_HANDLER error reply,
otherwise the registered handler is dispatched. `dispatch` abstracts the
registered handlers' bodies (the result holds for every dispatch). -/
def routeParsed (handlers : List (MessageType × HandlerTag))
    (dispatch : HandlerTag → InboundMessage → String → Option Reply)
    (message : InboundMessage) (session_id : String) : Option Reply :=
  match alistFind? handlers message.type with
  | none => some (.error "NO_HANDLER"
      ("No handler registered for message type: " ++ message.type.name))
  | some tag => dispatch tag message session_id

/-- A ticker message (models/messages.py `MarketDataMessage`); `sequence_id`
is a required pydantic field (`Field(...)`, no default). -/
structure MarketDataMessage where
  symbol : String
  last_price : ℚ
  bid : Option ℚ := none
  ask : Option ℚ := none
  volume_24h : ℚ := 0
  high_24h : Option ℚ := none
  low_24h : Option ℚ := none
  sequence_id : Int
deriving DecidableEq, Repr

/-- Pydantic construction of a `MarketDataMessage`: supplying no value for
the required `sequence_id` field raises a ValidationError. -/
def MarketDataMessage.construct (symbol : String) (last_price : ℚ)
    (bid ask : Option ℚ) (volume_24h : ℚ) (high_24h low_24h : Option ℚ)
    (sequence_id : Option Int) : Except String MarketDataMessage :=
  match sequence_id with
  | none => .error "validation error: sequence_id field required"
  | some s =>
    .ok { symbol := symbol, last_price := last_price, bid := bid, ask := ask,
          volume_24h := volume_24h, high_24h := high_24h, low_24h := low_24h,
          sequence_id := s }

/-- Market-data generator state (market_data/generator.py
`MarketDataGenerator`): the fields read by ticker assembly. -/
structure MarketDataGenerator where
  symbol : String
  current_price : ℚ
  high_24h : ℚ
  low_24h : ℚ
  volume_24h : ℚ := 0
deriving DecidableEq, Repr

/-- `MarketDataGenerator.get_market_data_message()`: computes a 0.01% spread
around the current price and constructs the `MarketDataMessage` — passing no
`sequence_id` (the source's constructor call has no such argument). -/
def MarketDataGenerator.get_market_data_message (g : MarketDataGenerator) :
    Except String MarketDataMessage :=
  let spread := g.current_price * (1 / 10000)
  let bid := g.current_price - spread / 2
  let ask := g.current_price + spread / 2
  MarketDataMessage.construct g.symbol g.current_price (some bid) (some ask)
    g.volume_24h (some g.high_24h) (some g.low_24h) none

/-- rest_api.py `RestAPIHandler.get_order`, reduced to the HTTP status it
selects: 400 when the path carries no order id (falsy match), 404 when the
engine returns no order for this session, 200 otherwise. -/
def restGetOrderStatus (st : ExchangeEngine) (session_id order_id : String) : Nat :=
  if order_id = "" then 400
  else
    match st.get_order session_id order_id with
    | none => 404
    | some _ => 200

/-! ### Specification-side definitions

These definitions follow the specification's words (not the source) and are
compared with the source-derived definitions above by the refinement and
invariant theorems below. -/

/-- The property §3 claims of a price level: the stored running total equals
the sum of the remaining quantities of the orders currently at the level. -/
def levelTotalConsistent (store : List (String × Order)) (lvl : PriceLevel) : Prop :=
  lvl.total_quantity = sumRemaining store lvl.orders

/-- Spec-side view of a price level: its price paired with the FIFO queue of
its makers' remaining quantities, resolved in the order store. -/
def levelView (store : List (String × Order)) (lvl : PriceLevel) : ℚ × List ℚ :=
  (lvl.price, lvl.orders.map (storeRemaining store))

/-- Spec-side view of one side of a book, best level first. -/
def sideView (store : List (String × Order)) (lvls : List PriceLevel) :
    List (ℚ × List ℚ) :=
  lvls.map (levelView store)

/-- Modelled from the spec (§4.2): a taker takes the best opposite level
"while (type=MARKET or price ≥ best_ask)" for a BUY, symmetrically
"price ≤ best_bid" for a SELL. -/
def specAccepts (taker : Order) (best : ℚ) : Bool :=
  taker.order_type = .MARKET ||
    (match taker.price with
     | some limit => if taker.side = .BUY then best ≤ limit else limit ≤ best
     | none => true)

/-- Modelled from the spec (§4.2): the sequence of (price, quantity) fills
produced by matching. While the taker has remaining quantity and the best
level's price is acceptable, take the FIFO-head maker at that level; the
fill quantity is min(taker.remaining, maker.remaining) at the maker's price;
remove the maker once fully filled (and the level once empty). The fuel
argument mirrors the loop embedding below and is consumed once per
iteration. -/
def specFills (accept : ℚ → Bool) : Nat → ℚ → List (ℚ × List ℚ) → List (ℚ × ℚ)
  | 0, _, _ => []
  | _ + 1, _, [] => []
  | fuel + 1, rem, (p, ms) :: rest =>
    if rem ≤ 0 then []
    else if ¬ accept p then []
    else
      match ms with
      | [] => []
      | m :: mrest =>
        let q := min rem m
        (p, q) :: specFills accept fuel (rem - q)
          (if m - q ≤ 0 then (if mrest.isEmpty then rest else (p, mrest) :: rest)
           else (p, (m - q) :: mrest) :: rest)

/-- The status/filled relationship that the order lifecycle maintains for an
order admitted as OPEN: FILLED once filled reaches quantity, PARTIALLY_FILLED
once anything filled, OPEN otherwise. -/
def statusConsistent (o : Order) : Prop :=
  o.status = (if o.quantity ≤ o.filled_quantity then OrderStatus.FILLED
              else if 0 < o.filled_quantity then OrderStatus.PARTIALLY_FILLED
              else OrderStatus.OPEN)

/-- The levels of the side of the taker's book that `_match_order` consumes:
the asks for a BUY taker, the bids for a SELL taker. -/
def ExchangeEngine.matchSide (st : ExchangeEngine) (taker : Order) : List PriceLevel :=
  if taker.side = .BUY then (st.book taker.symbol).asks else (st.book taker.symbol).bids

/-- Well-formedness of the matched side of the book relative to the engine's
order store — the invariants §3 states for reachable books: levels are
nonempty, every referenced order exists in the store under its own id, rests
on the opposite side at the level's price with positive remaining quantity,
is indexed by the book, no order id is referenced twice, and the (fresh)
taker id is not among them. -/
structure MatchWF (st : ExchangeEngine) (taker : Order) : Prop where
  levels_nonempty : ∀ lvl ∈ st.matchSide taker, lvl.orders ≠ []
  nodup : (List.flatMap (st.matchSide taker) PriceLevel.orders).Nodup
  maker_ok : ∀ lvl ∈ st.matchSide taker, ∀ id ∈ lvl.orders,
    ∃ o, alistFind? st._all_orders id = some o ∧
      o.order_id = id ∧
      0 < o.remaining_quantity ∧
      o.price = some lvl.price ∧
      o.side = (if taker.side = .BUY then OrderSide.SELL else OrderSide.BUY) ∧
      o.symbol = taker.symbol
  indexed : ∀ lvl ∈ st.matchSide taker, ∀ id ∈ lvl.orders,
    id ∈ (st.book taker.symbol)._orders
  taker_fresh : taker.order_id ∉ List.flatMap (st.matchSide taker) PriceLevel.orders

/-! ### Helper lemmas -/

theorem alistFind?_insert_self {α β : Type} [DecidableEq α]
    (l : List (α × β)) (k : α) (v : β) :
    alistFind? (alistInsert l k v) k = some v := by
  induction l with
  | nil => simp [alistInsert, alistFind?]
  | cons kv rest ih =>
    obtain ⟨k', v'⟩ := kv
    by_cases h : k' = k
    · simp [alistInsert, alistFind?, h]
    · simp [alistInsert, alistFind?, h, ih]

theorem alistFind?_insert_ne {α β : Type} [DecidableEq α]
    (l : List (α × β)) (k k' : α) (v : β) (h : k' ≠ k) :
    alistFind? (alistInsert l k v) k' = alistFind? l k' := by
  induction l with
  | nil => simp [alistInsert, alistFind?, Ne.symm h]
  | cons kv rest ih =>
    obtain ⟨k₀, v₀⟩ := kv
    by_cases h0 : k₀ = k
    · subst h0
      simp [alistInsert, alistFind?, Ne.symm h]
    · simp only [alistInsert, if_neg h0]
      by_cases h1 : k₀ = k'
      · simp [alistFind?, h1]
      · simp [alistFind?, h1, ih]

/-! ### Claim theorems -/

/-- C2: the claim reads "the server-side ticker sequence_id begins at 1 and
increases by exactly 1 on every emitted ticker". The code has no such
counter: `MarketDataMessage.sequence_id` is a required field, yet the
generator's `get_market_data_message` constructs the message without it, so
every call raises a pydantic ValidationError (the broadcast loop catches and
logs it) and no ticker carrying a sequence_id is ever produced. -/
theorem ticker_construction_always_fails (g : MarketDataGenerator) :
    g.get_market_data_message =
      Except.error "validation error: sequence_id field required" := by
  rfl

/-- C3: the claim reads "routing a PING through the server's message router
(with the handlers the server registers at startup) returns a PONG with the
same request_id". The server's `_register_handlers` registers no handler for
PING, so routing any PING yields the NO_HANDLER error reply instead —
whatever the registered handlers do. The heartbeat handler that would have
produced the matching PONG exists but is never registered. -/
theorem ping_routes_to_no_handler
    (dispatch : HandlerTag → InboundMessage → String → Option Reply)
    (rid : Option String) (session_id : String) :
    routeParsed serverHandlers dispatch { type := .PING, request_id := rid } session_id =
      some (.error "NO_HANDLER" "No handler registered for message type: PING") ∧
    HeartbeatHandler.handle { type := .PING, request_id := rid } =
      some (.pong rid) := by
  exact ⟨rfl, rfl⟩

/-- C9: the client sequence tracker's update rules — an id equal to the
expectation advances it by one with no gap; a lower id is ignored and changes
nothing; a higher id reports the gap [expected, observed-1] and sets the
expectation to observed+1 — and the three concrete runs: 1,2,3,4 yields no
gaps; 1,2,4 yields exactly [3,3]; 1,3,2 yields [2,2] and then ignores the 2. -/
theorem sequence_tracker_gap_rules :
    (∀ (t : SequenceTracker) (ch sym : String) (seq : Int),
      (seq = t.get_expected ch sym →
        (t.update ch sym seq).2 = none ∧
        (t.update ch sym seq).1.get_expected ch sym = seq + 1) ∧
      (seq < t.get_expected ch sym → t.update ch sym seq = (t, none)) ∧
      (t.get_expected ch sym < seq →
        (t.update ch sym seq).2 =
          some { channel := ch, symbol := sym,
                 start_seq := t.get_expected ch sym, end_seq := seq - 1 } ∧
        (t.update ch sym seq).1.get_expected ch sym = seq + 1)) ∧
    (({} : SequenceTracker).feed "TICKER" "BTC/USD" [1, 2, 3, 4]).2 = [] ∧
    (({} : SequenceTracker).feed "TICKER" "BTC/USD" [1, 2, 4]).2 =
      [{ channel := "TICKER", symbol := "BTC/USD", start_seq := 3, end_seq := 3 }] ∧
    (({} : SequenceTracker).feed "TICKER" "BTC/USD" [1, 3, 2]).2 =
      [{ channel := "TICKER", symbol := "BTC/USD", start_seq := 2, end_seq := 2 }] ∧
    ((({} : SequenceTracker).feed "TICKER" "BTC/USD" [1, 3]).1.update "TICKER" "BTC/USD" 2) =
      ((({} : SequenceTracker).feed "TICKER" "BTC/USD" [1, 3]).1, none) := by
  refine ⟨?_, by decide, by decide, by decide, by decide⟩
  intro t ch sym seq
  refine ⟨?_, ?_, ?_⟩
  · intro h
    have hlt : ¬ seq < t.get_expected ch sym := by omega
    have hgt : ¬ t.get_expected ch sym < seq := by omega
    simp only [SequenceTracker.update, SequenceTracker.get_expected] at h hlt hgt ⊢
    rw [if_neg hlt, if_neg hgt]
    exact ⟨rfl, by rw [alistFind?_insert_self]; rfl⟩
  · intro h
    simp only [SequenceTracker.update, SequenceTracker.get_expected] at h ⊢
    rw [if_pos h]
  · intro h
    have hlt : ¬ seq < t.get_expected ch sym := by omega
    simp only [SequenceTracker.update, SequenceTracker.get_expected] at h hlt ⊢
    rw [if_neg hlt, if_pos h]
    exact ⟨rfl, by rw [alistFind?_insert_self]; rfl⟩

/-- Witness for C9's conditional clauses, at the tracker state reached by
feeding 1 then 3 (expected id 4): 5 is above the expectation and reports the
gap [4,4]; 2 is below and is ignored; 4 matches and advances to 5. -/
theorem sequence_tracker_gap_rules_witness :
    (let t := (({} : SequenceTracker).feed "TICKER" "BTC/USD" [1, 3]).1
     (t.update "TICKER" "BTC/USD" 5).2 =
        some { channel := "TICKER", symbol := "BTC/USD", start_seq := 4, end_seq := 4 } ∧
     t.update "TICKER" "BTC/USD" 2 = (t, none) ∧
     (t.update "TICKER" "BTC/USD" 4).2 = none ∧
     (t.update "TICKER" "BTC/USD" 4).1.get_expected "TICKER" "BTC/USD" = 5) := by
  have h := sequence_tracker_gap_rules.1
    ((({} : SequenceTracker).feed "TICKER" "BTC/USD" [1, 3]).1) "TICKER" "BTC/USD"
  exact ⟨((h 5).2.2 (by decide)).1,
         (h 2).2.1 (by decide),
         ((h 4).1 (by decide)).1,
         ((h 4).1 (by decide)).2⟩

/-- C10: `ExchangeEngine.get_order` is owner-scoped: an order recorded for
session `a` is returned to `a` and to no other session; on the request API a
foreign session's lookup surfaces as 404. -/
theorem get_order_owner_scoped (st : ExchangeEngine) (a b order_id : String)
    (o : Order) (hrec : alistFind? st._all_orders order_id = some o)
    (hown : o.session_id = a) (hid : order_id ≠ "") :
    st.get_order a order_id = some o ∧
    (b ≠ a → st.get_order b order_id = none ∧ restGetOrderStatus st b order_id = 404) := by
  constructor
  · simp [ExchangeEngine.get_order, hrec, hown]
  · intro hb
    have hno : st.get_order b order_id = none := by
      simp [ExchangeEngine.get_order, hrec, hown, Ne.symm hb]
    exact ⟨hno, by simp [restGetOrderStatus, hid, hno]⟩

/-- Witness for C10 at a concrete engine state: the single recorded order of
session A is visible to A, invisible to B, and B's REST lookup returns 404. -/
theorem get_order_owner_scoped_witness :
    (let st := ((ExchangeEngine.init ["BTC/USD"]).place_order "A" "BTC/USD"
        .BUY .LIMIT 1 (some 100) .GTC).1
     st.get_order "B" "uuid-0" = none ∧ restGetOrderStatus st "B" "uuid-0" = 404) := by
  have h := get_order_owner_scoped
    (((ExchangeEngine.init ["BTC/USD"]).place_order "A" "BTC/USD"
        .BUY .LIMIT 1 (some 100) .GTC).1)
    "A" "B" "uuid-0"
    ({ order_id := "uuid-0", session_id := "A", symbol := "BTC/USD", side := .BUY,
       order_type := .LIMIT, price := some 100, quantity := 1, filled_quantity := 0,
       status := .OPEN, time_in_force := .GTC })
    (by with_unfolding_all rfl) rfl (by decide)
  exact h.2 (by decide)

/-- Counterexample to C4: a MARKET BUY for quantity 1 on an empty book
exhausts the (empty) opposite side with its full quantity remaining, yet
`place_order` returns it with status OPEN — not CANCELLED. The post-matching
cancellation block of `place_order` runs only for LIMIT orders. -/
theorem market_remainder_not_cancelled_cex :
    ((ExchangeEngine.init ["BTC/USD"]).place_order "T" "BTC/USD"
        .BUY .MARKET 1 none .GTC).2 =
      .ok ({ order_id := "uuid-0", session_id := "T", symbol := "BTC/USD",
             side := .BUY, order_type := .MARKET, price := none, quantity := 1,
             filled_quantity := 0, status := .OPEN, time_in_force := .GTC }, []) ∧
    OrderStatus.OPEN ≠ OrderStatus.CANCELLED := by
  exact ⟨by with_unfolding_all rfl, by decide⟩

set_option maxRecDepth 2000 in
/-- C1: the claim (and the spec) demand that an unfillable FOK order behave
atomically — zero fills, order rejected, and all engine state untouched. The
code rejects the order and clears only the returned fill list (its own
comment: "in real system would prevent fills"): the resting maker stays
filled and removed from the book, the recorded fills, positions and last
trade price all keep the mutations. Evaluated at the failing input — maker M
rests SELL LIMIT 1 @ 100, taker T sends BUY LIMIT 2 @ 100 FOK. -/
theorem fok_unfillable_mutates_state :
    (let st1 := ((ExchangeEngine.init ["BTC/USD"]).place_order "M" "BTC/USD"
        .SELL .LIMIT 1 (some 100) .GTC).1
     let r := st1.place_order "T" "BTC/USD" .BUY .LIMIT 2 (some 100) .FOK
     -- the order is rejected and the call returns zero fills …
     r.2 = .ok ({ order_id := "uuid-1", session_id := "T", symbol := "BTC/USD",
                  side := .BUY, order_type := .LIMIT, price := some 100,
                  quantity := 2, filled_quantity := 1, status := .REJECTED,
                  time_in_force := .FOK }, []) ∧
     -- … but the engine state is not the pre-call state:
     r.1._fills.length = 2 ∧ st1._fills.length = 0 ∧
     (alistFind? r.1._all_orders "uuid-0").map Order.filled_quantity = some 1 ∧
     (alistFind? st1._all_orders "uuid-0").map Order.filled_quantity = some 0 ∧
     (r.1.book "BTC/USD").asks.length = 0 ∧
     (st1.book "BTC/USD").asks.length = 1 ∧
     r.1.get_last_price "BTC/USD" = some 100 ∧
     st1.get_last_price "BTC/USD" = none ∧
     ((r.1.account_manager.get_account "M").map fun a => a.positions.length) = some 1 ∧
     ((st1.account_manager.get_account "M").map fun a => a.positions.length) = some 0) := by
  refine ⟨?_, ?_, ?_, ?_, ?_, ?_, ?_, ?_, ?_, ?_, ?_⟩
  · with_unfolding_all rfl
  · with_unfolding_all rfl
  · with_unfolding_all rfl
  · with_unfolding_all rfl
  · with_unfolding_all rfl
  · with_unfolding_all rfl
  · with_unfolding_all rfl
  · with_unfolding_all rfl
  · with_unfolding_all rfl
  · with_unfolding_all rfl
  · with_unfolding_all rfl

set_option maxRecDepth 2000 in
/-- Counterexample to C8: maker M rests SELL LIMIT 2 @ 100; taker T takes 1
with a MARKET BUY. The partial fill decrements the maker's remaining quantity
but no book operation touches the level, so `get_depth` still reports the
stale total 2 while the level's orders sum to remaining quantity 1. -/
theorem depth_total_stale_cex :
    (let st1 := ((ExchangeEngine.init ["BTC/USD"]).place_order "M" "BTC/USD"
        .SELL .LIMIT 2 (some 100) .GTC).1
     let st2 := (st1.place_order "T" "BTC/USD" .BUY .MARKET 1 none .GTC).1
     let ob := st2.book "BTC/USD"
     (ob.get_depth 10).2 = [(100, 2)] ∧
     ob.asks.map (fun lvl => sumRemaining st2._all_orders lvl.orders) = [1] ∧
     (2 : ℚ) ≠ 1) := by
  refine ⟨?_, ?_, ?_⟩
  · with_unfolding_all rfl
  · with_unfolding_all rfl
  · exact of_decide_eq_true (by with_unfolding_all rfl)


/-- C6: BUY LIMIT balance validation. With the session's USD balance B, a BUY
LIMIT of quantity Q at price P passes balance validation and the placement
returns normally when P*Q ≤ B; when P*Q > B the placement raises the
insufficient-balance error, the order is still recorded under its assigned id
with status REJECTED, and the session's account state is unchanged. -/
theorem buy_limit_balance_validation (st : ExchangeEngine)
    (session symbol : String) (P Q B : ℚ) (tif : TimeInForce) (acct : Account)
    (hsym : symbol ∈ st.symbols) (hQ : 0 < Q) (hP : 0 < P)
    (hacct : st.account_manager.get_account session = some acct)
    (hbal : acct.get_balance "USD" = B) :
    (P * Q ≤ B →
      ExchangeEngine.validate_order_balance
        { order_id := (st.fresh).1, session_id := session, symbol := symbol,
          side := .BUY, order_type := .LIMIT, price := some P, quantity := Q,
          time_in_force := tif } acct = true ∧
      ∃ r, (st.place_order session symbol .BUY .LIMIT Q (some P) tif).2 = .ok r) ∧
    (B < P * Q →
      (st.place_order session symbol .BUY .LIMIT Q (some P) tif).2 =
        .error "Insufficient balance" ∧
      alistFind? (st.place_order session symbol .BUY .LIMIT Q (some P) tif).1._all_orders
          (st.fresh).1 =
        some { order_id := (st.fresh).1, session_id := session, symbol := symbol,
               side := .BUY, order_type := .LIMIT, price := some P, quantity := Q,
               filled_quantity := 0, status := .REJECTED, time_in_force := tif } ∧
      (st.place_order session symbol .BUY .LIMIT Q (some P) tif).1.account_manager =
        st.account_manager) := by
  have hq : ¬ Q ≤ 0 := not_le.mpr hQ
  have hp : ¬ P ≤ 0 := not_le.mpr hP
  have hmem : ¬ symbol ∉ st.symbols := by simpa using hsym
  have hval : ∀ o_id,
      ExchangeEngine.validate_order_balance
        { order_id := o_id, session_id := session, symbol := symbol,
          side := .BUY, order_type := .LIMIT, price := some P, quantity := Q,
          time_in_force := tif } acct = decide (P * Q ≤ B) := by
    intro o_id
    simp [ExchangeEngine.validate_order_balance, Account.has_sufficient_balance, hbal]
  have hgoc : st.account_manager.get_or_create_account session = (st.account_manager, acct) := by
    unfold AccountManager.get_or_create_account
    unfold AccountManager.get_account at hacct
    rw [hacct]
  constructor
  · intro h
    refine ⟨by rw [hval]; exact decide_eq_true h, ?_⟩
    simp only [ExchangeEngine.place_order, ExchangeEngine.fresh]
    rw [if_neg hmem, if_neg hq]
    rw [if_neg (show ¬ (True ∧ some P = none) by simp)]
    rw [if_neg (show ¬ (decide (P ≤ 0) = true) by simp [hp])]
    rw [hgoc]
    rw [hval, decide_eq_true h]
    rw [if_neg (show ¬ (¬ true = true) by simp)]
    exact ⟨_, rfl⟩
  · intro h
    have hnv : ¬ P * Q ≤ B := not_le.mpr h
    simp only [ExchangeEngine.place_order, ExchangeEngine.fresh]
    rw [if_neg hmem, if_neg hq]
    rw [if_neg (show ¬ (True ∧ some P = none) by simp)]
    rw [if_neg (show ¬ (decide (P ≤ 0) = true) by simp [hp])]
    rw [hgoc]
    rw [hval, decide_eq_false hnv]
    rw [if_pos (show (¬ false = true) by simp)]
    refine ⟨rfl, ?_, rfl⟩
    simp [ExchangeEngine.putOrder, Order.reject, alistFind?_insert_self]

/-- Witness for C6, at the spec's own boundary example: session C holds USD
1000; BUY LIMIT 0.1 @ 9000 (cost 900) is accepted, BUY LIMIT 0.2 @ 9000
(cost 1800) fails with the insufficient-balance error. -/
theorem buy_limit_balance_validation_witness :
    ((∃ r, ((ExchangeEngine.init ["BTC/USD"]
        { _accounts := [("C", { session_id := "C", balances := [("USD", 1000)] })] }).place_order
        "C" "BTC/USD" .BUY .LIMIT (1/10) (some 9000) .GTC).2 = .ok r) ∧
     ((ExchangeEngine.init ["BTC/USD"]
        { _accounts := [("C", { session_id := "C", balances := [("USD", 1000)] })] }).place_order
        "C" "BTC/USD" .BUY .LIMIT (2/10) (some 9000) .GTC).2 =
       .error "Insufficient balance") := by
  constructor
  · exact ((buy_limit_balance_validation
      (ExchangeEngine.init ["BTC/USD"]
        { _accounts := [("C", { session_id := "C", balances := [("USD", 1000)] })] })
      "C" "BTC/USD" 9000 (1/10) 1000 .GTC
      { session_id := "C", balances := [("USD", 1000)] }
      (by decide) (by norm_num) (by norm_num) rfl rfl).1 (by norm_num)).2
  · exact ((buy_limit_balance_validation
      (ExchangeEngine.init ["BTC/USD"]
        { _accounts := [("C", { session_id := "C", balances := [("USD", 1000)] })] })
      "C" "BTC/USD" 9000 (2/10) 1000 .GTC
      { session_id := "C", balances := [("USD", 1000)] }
      (by decide) (by norm_num) (by norm_num) rfl rfl).2 (by norm_num)).1

/-- C7: the server-side rate limiter's escalation ladder. A permanently
banned session is rejected with no retry_after and an unchanged limiter
state — so, by the same equation applied to every later request, forever.
For a session that is not banned, an admission violation (the one-second
window already at the limit) escalates by the number of violations within
`violation_window`: a first violation is rejected with retry_after =
wait_period and a temporary ban until now + wait_period; a second violation
carries retry_after = second_violation_ban; a third makes the ban permanent
and the rejection carries no retry_after, hence no Retry-After header on the
429 response. -/
theorem rate_limiter_escalation (cfg : RateLimitConfig) (st : RateLimitState)
    (sid : String) (now : ℚ) (recentLen priors : Nat)
    (hrecent : recentLen = (((alistFind? st._session_requests sid).getD
        ([], (cfg.current_limit * 2).toNat)).1.dropWhile (fun ts => ts < now - 1)).length)
    (hpriors : priors = (((alistFind? st._session_violations sid).getD []).filter
        (fun v => now - (cfg.violation_window_seconds : ℚ) < v)).length) :
    (st._permanent_bans.contains sid = true →
      cfg.check_rate_limit st sid now =
        (st, false,
         some "Account permanently banned due to repeated rate limit violations", none)) ∧
    (st._permanent_bans.contains sid = false →
     alistFind? st._session_bans sid = none →
     0 < cfg.violation_window_seconds →
     (recentLen : Int) ≥ cfg.current_limit →
      ((priors = 0 →
          (cfg.check_rate_limit st sid now).2.1 = false ∧
          (cfg.check_rate_limit st sid now).2.2.2 = some cfg.wait_period_seconds ∧
          alistFind? (cfg.check_rate_limit st sid now).1._session_bans sid =
            some (now + (cfg.wait_period_seconds : ℚ)) ∧
          restRetryAfterHeader (cfg.check_rate_limit st sid now).2.2.2 =
            some (toString cfg.wait_period_seconds)) ∧
       (priors = 1 →
          (cfg.check_rate_limit st sid now).2.1 = false ∧
          (cfg.check_rate_limit st sid now).2.2.2 = some cfg.second_violation_ban_seconds ∧
          alistFind? (cfg.check_rate_limit st sid now).1._session_bans sid =
            some (now + (cfg.second_violation_ban_seconds : ℚ))) ∧
       (2 ≤ priors →
          (cfg.check_rate_limit st sid now).2.1 = false ∧
          (cfg.check_rate_limit st sid now).2.2.2 = none ∧
          (cfg.check_rate_limit st sid now).1._permanent_bans.contains sid = true ∧
          restRetryAfterHeader (cfg.check_rate_limit st sid now).2.2.2 = none))) := by
  constructor
  · intro h
    unfold RateLimitConfig.check_rate_limit
    rw [if_pos h]
  · intro hcont hban hwin hviol
    have hlim : (1 : Int) ≤ cfg.current_limit := le_max_left 1 _
    have hcrl : cfg.check_rate_limit st sid now = cfg.check_window st sid now := by
      unfold RateLimitConfig.check_rate_limit
      rw [if_neg (show ¬ (st._permanent_bans.contains sid = true) by rw [hcont]; exact Bool.false_ne_true), hban]
    rw [hcrl] at *
    rcases hreq : alistFind? st._session_requests sid with _ | e
    · rw [hreq] at hrecent
      simp only [Option.getD, List.dropWhile] at hrecent
      exfalso
      rw [hrecent] at hviol
      simp at hviol
      omega
    · rw [hreq] at hrecent
      simp only [Option.getD] at hrecent
      have hwq : now - (cfg.violation_window_seconds : ℚ) < now := by
        have hpos : (0 : ℚ) < (cfg.violation_window_seconds : ℚ) := by exact_mod_cast hwin
        linarith
      have hwindow :
          ((((alistFind? st._session_violations sid).getD []) ++ [now]).filter
            (fun v => now - (cfg.violation_window_seconds : ℚ) < v)).length = priors + 1 := by
        rw [List.filter_append]
        simp [hwq, hpriors]
      have hcw : cfg.check_window st sid now =
          (let request_times := e.1.dropWhile (fun ts => ts < now - 1)
           let violations := (((alistFind? st._session_violations sid).getD []) ++ [now]).filter
             (fun v => now - (cfg.violation_window_seconds : ℚ) < v)
           let st1 : RateLimitState := { st with
             _session_requests := alistInsert st._session_requests sid (request_times, e.2),
             _session_violations := alistInsert st._session_violations sid violations }
           let permBans := st1._permanent_bans ++ [sid]
           let secondBans := alistInsert st1._session_bans sid (now + (cfg.second_violation_ban_seconds : ℚ))
           let waitBans := alistInsert st1._session_bans sid (now + (cfg.wait_period_seconds : ℚ))
           if violations.length ≥ 3 then
             ({ st1 with _permanent_bans := permBans },
               false, some "Account permanently banned due to repeated rate limit violations", none)
           else if violations.length ≥ 2 then
             ({ st1 with _session_bans := secondBans },
               false, some "Rate limit exceeded. Account temporarily banned",
               some cfg.second_violation_ban_seconds)
           else
             ({ st1 with _session_bans := waitBans },
               false, some "Rate limit exceeded", some cfg.wait_period_seconds)) := by
        simp only [RateLimitConfig.check_window, hreq]
        rw [if_pos (by rw [hrecent] at hviol; exact hviol)]
      rw [hcw]
      simp only [hwindow]
      refine ⟨?_, ?_, ?_⟩
      · intro h0
        rw [if_neg (by omega), if_neg (by omega)]
        exact ⟨rfl, rfl, alistFind?_insert_self _ _ _, rfl⟩
      · intro h1
        rw [if_neg (by omega), if_pos (by omega)]
        exact ⟨rfl, rfl, alistFind?_insert_self _ _ _⟩
      · intro h2
        rw [if_pos (by omega)]
        refine ⟨rfl, rfl, ?_, rfl⟩
        exact List.elem_eq_true_of_mem (List.mem_append_right _ (List.mem_singleton_self sid))


/-- Witness for C7, at the spec's scenario (baseline_rps = 2, wait_period =
10, second_violation_ban = 60, violation_window = 60): a third request inside
one second is rejected with retry_after 10; with one prior violation in the
window, with 60; with two priors, the session becomes permanently banned and
the rejection has no retry_after; a permanently banned session's request is
rejected with no retry_after. -/
theorem rate_limiter_escalation_witness :
    (((RateLimitConfig.check_rate_limit
        { baseline_rps := 2, wait_period_seconds := 10, second_violation_ban_seconds := 60,
          violation_window_seconds := 60, volume_multiplier := 1 }
        { _session_requests := [("s", ([0, 0], 4))], _session_violations := [("s", [])],
          _session_bans := [], _permanent_bans := [] } "s" 0).2.1 = false ∧
      (RateLimitConfig.check_rate_limit
        { baseline_rps := 2, wait_period_seconds := 10, second_violation_ban_seconds := 60,
          violation_window_seconds := 60, volume_multiplier := 1 }
        { _session_requests := [("s", ([0, 0], 4))], _session_violations := [("s", [])],
          _session_bans := [], _permanent_bans := [] } "s" 0).2.2.2 = some 10) ∧
     ((RateLimitConfig.check_rate_limit
        { baseline_rps := 2, wait_period_seconds := 10, second_violation_ban_seconds := 60,
          violation_window_seconds := 60, volume_multiplier := 1 }
        { _session_requests := [("s", ([0, 0], 4))], _session_violations := [("s", [-30])],
          _session_bans := [], _permanent_bans := [] } "s" 0).2.2.2 = some 60) ∧
     ((RateLimitConfig.check_rate_limit
        { baseline_rps := 2, wait_period_seconds := 10, second_violation_ban_seconds := 60,
          violation_window_seconds := 60, volume_multiplier := 1 }
        { _session_requests := [("s", ([0, 0], 4))], _session_violations := [("s", [-30, -20])],
          _session_bans := [], _permanent_bans := [] } "s" 0).2.2.2 = none ∧
      (RateLimitConfig.check_rate_limit
        { baseline_rps := 2, wait_period_seconds := 10, second_violation_ban_seconds := 60,
          violation_window_seconds := 60, volume_multiplier := 1 }
        { _session_requests := [("s", ([0, 0], 4))], _session_violations := [("s", [-30, -20])],
          _session_bans := [], _permanent_bans := [] } "s" 0).1._permanent_bans.contains "s" =
        true) ∧
     (RateLimitConfig.check_rate_limit
        { baseline_rps := 2, wait_period_seconds := 10, second_violation_ban_seconds := 60,
          violation_window_seconds := 60, volume_multiplier := 1 }
        { _session_requests := [], _session_violations := [],
          _session_bans := [], _permanent_bans := ["s"] } "s" 99).2.2.2 = none) := by
  refine ⟨?_, ?_, ?_, ?_⟩
  · have h := (rate_limiter_escalation
      { baseline_rps := 2, wait_period_seconds := 10, second_violation_ban_seconds := 60,
        violation_window_seconds := 60, volume_multiplier := 1 }
      { _session_requests := [("s", ([0, 0], 4))], _session_violations := [("s", [])],
        _session_bans := [], _permanent_bans := [] } "s" 0 2 0
      (by with_unfolding_all rfl) (by with_unfolding_all rfl)).2
      rfl rfl (by norm_num)
      (of_decide_eq_true (by with_unfolding_all rfl))
    exact ⟨(h.1 rfl).1, (h.1 rfl).2.1⟩
  · have h := (rate_limiter_escalation
      { baseline_rps := 2, wait_period_seconds := 10, second_violation_ban_seconds := 60,
        violation_window_seconds := 60, volume_multiplier := 1 }
      { _session_requests := [("s", ([0, 0], 4))], _session_violations := [("s", [-30])],
        _session_bans := [], _permanent_bans := [] } "s" 0 2 1
      (by with_unfolding_all rfl) (by with_unfolding_all rfl)).2
      rfl rfl (by norm_num)
      (of_decide_eq_true (by with_unfolding_all rfl))
    exact (h.2.1 rfl).2.1
  · have h := (rate_limiter_escalation
      { baseline_rps := 2, wait_period_seconds := 10, second_violation_ban_seconds := 60,
        violation_window_seconds := 60, volume_multiplier := 1 }
      { _session_requests := [("s", ([0, 0], 4))], _session_violations := [("s", [-30, -20])],
        _session_bans := [], _permanent_bans := [] } "s" 0 2 2
      (by with_unfolding_all rfl) (by with_unfolding_all rfl)).2
      rfl rfl (by norm_num)
      (of_decide_eq_true (by with_unfolding_all rfl))
    exact ⟨(h.2.2 (by norm_num)).2.1, (h.2.2 (by norm_num)).2.2.1⟩
  · have h := (rate_limiter_escalation
      { baseline_rps := 2, wait_period_seconds := 10, second_violation_ban_seconds := 60,
        violation_window_seconds := 60, volume_multiplier := 1 }
      { _session_requests := [], _session_violations := [],
        _session_bans := [], _permanent_bans := ["s"] } "s" 99 0 0 rfl rfl).1 rfl
    rw [h]

/-- `Order.fill` keeps the status consistent with the filled quantity. -/
theorem Order.fill_statusConsistent (o : Order) (q : ℚ)
    (h0 : 0 ≤ o.filled_quantity) (hq : 0 < q) :
    statusConsistent (o.fill q) ∧
    (o.fill q).filled_quantity = o.filled_quantity + q ∧
    (o.fill q).quantity = o.quantity := by
  unfold Order.fill statusConsistent Order.is_filled
  by_cases hf : o.quantity ≤ o.filled_quantity + q
  · simp [hf]
  · have hpos : 0 < o.filled_quantity + q := by linarith
    simp [hf, hpos]

/-- `_execute_fill` keeps the taker's status consistent with its filled
quantity, and does not change its quantity. -/
theorem execute_fill_statusConsistent (st : ExchangeEngine) (taker : Order)
    (maker_id : String) (price : ℚ)
    (h0 : 0 ≤ taker.filled_quantity) (hc : statusConsistent taker) :
    0 ≤ (st.execute_fill taker maker_id price).2.1.filled_quantity ∧
    statusConsistent (st.execute_fill taker maker_id price).2.1 ∧
    (st.execute_fill taker maker_id price).2.1.quantity = taker.quantity := by
  unfold ExchangeEngine.execute_fill
  rcases hm : alistFind? st._all_orders maker_id with _ | maker
  · exact ⟨h0, hc, by trivial⟩
  · by_cases hq : min taker.remaining_quantity maker.remaining_quantity ≤ 0
    · simp only [if_pos hq]
      exact ⟨h0, hc, by trivial⟩
    · have hq' : 0 < min taker.remaining_quantity maker.remaining_quantity := lt_of_not_le hq
      have h := Order.fill_statusConsistent taker _ h0 hq'
      simp only [if_neg hq]
      exact ⟨by rw [h.2.1]; linarith, h.1, h.2.2⟩

/-- The matching loop keeps the taker's status consistent with its filled
quantity, whatever the fuel, and does not change its quantity. -/
theorem match_loop_statusConsistent (fuel : Nat) :
    ∀ (st : ExchangeEngine) (taker : Order) (fills : List Fill),
    0 ≤ taker.filled_quantity → statusConsistent taker →
    0 ≤ (st.match_loop taker fills fuel).2.1.filled_quantity ∧
    statusConsistent (st.match_loop taker fills fuel).2.1 ∧
    (st.match_loop taker fills fuel).2.1.quantity = taker.quantity := by
  induction fuel with
  | zero => intro st taker fills h0 hc; exact ⟨h0, hc, rfl⟩
  | succ fuel ih =>
    intro st taker fills h0 hc
    unfold ExchangeEngine.match_loop
    by_cases hrem : taker.remaining_quantity ≤ 0
    · simp only [if_pos hrem]
      exact ⟨h0, hc, by trivial⟩
    · simp only [if_neg hrem]
      rcases hlv : (if taker.side = .BUY then (st.book taker.symbol).asks
          else (st.book taker.symbol).bids) with _ | ⟨lvl, rest⟩
      · simp only [hlv]
        exact ⟨h0, hc, by trivial⟩
      · simp only [hlv]
        by_cases hpu : priceUnacceptable taker lvl.price
        · simp only [if_pos hpu]
          exact ⟨h0, hc, by trivial⟩
        · simp only [if_neg hpu]
          by_cases hemp : lvl.is_empty
          · simp only [if_pos hemp]
            exact ⟨h0, hc, by trivial⟩
          · simp only [if_neg hemp]
            rcases hords : lvl.orders with _ | ⟨maker_id, more⟩
            · simp only [hords]
              exact ⟨h0, hc, by trivial⟩
            · simp only [hords]
              have hef := execute_fill_statusConsistent st taker maker_id lvl.price h0 hc
              refine ⟨(ih _ _ _ hef.1 hef.2.1).1, (ih _ _ _ hef.1 hef.2.1).2.1,
                (ih _ _ _ hef.1 hef.2.1).2.2.trans hef.2.2⟩


/-- C4 as amended: a MARKET order placed with positive quantity on a known
symbol always returns successfully, and after matching its status reflects
only its fills — FILLED when fully filled, else PARTIALLY_FILLED when
anything filled, else OPEN — never CANCELLED: the post-matching `place_order`
block that cancels remainders applies only to LIMIT orders, so a MARKET
remainder is left OPEN or PARTIALLY_FILLED rather than cancelled for
insufficient liquidity. -/
theorem market_remainder_status (st : ExchangeEngine) (session symbol : String)
    (side : OrderSide) (Q : ℚ) (tif : TimeInForce)
    (hsym : symbol ∈ st.symbols) (hQ : 0 < Q) :
    ∃ o fills, (st.place_order session symbol side .MARKET Q none tif).2 = .ok (o, fills) ∧
      statusConsistent o ∧ o.quantity = Q ∧
      o.status ≠ .CANCELLED ∧
      (0 < o.remaining_quantity →
        (o.filled_quantity = 0 → o.status = .OPEN) ∧
        (0 < o.filled_quantity → o.status = .PARTIALLY_FILLED)) := by
  have hq : ¬ Q ≤ 0 := not_le.mpr hQ
  have hmem : ¬ symbol ∉ st.symbols := by simpa using hsym
  have hv : ∀ (o_id : String) (acct : Account),
      ExchangeEngine.validate_order_balance
        { order_id := o_id, session_id := session, symbol := symbol,
          side := side, order_type := .MARKET, price := none, quantity := Q,
          time_in_force := tif } acct = true := by
    intro o_id acct
    cases side <;> rfl
  have hat : ∀ (s : ExchangeEngine) (o : Order) (f : List Fill),
      ExchangeEngine.apply_tif s o f .MARKET symbol tif = (s, o, f) := by
    intro s o f
    unfold ExchangeEngine.apply_tif
    rw [if_neg (by simp)]
  simp only [ExchangeEngine.place_order, ExchangeEngine.fresh]
  rw [if_neg hmem, if_neg hq]
  rw [if_neg (show ¬ (OrderType.MARKET = OrderType.LIMIT ∧ True) by simp)]
  rw [if_neg (show ¬ (false = true) by simp)]
  rw [hv, if_neg (show ¬ (¬ true = true) by simp)]
  rw [hat]
  have hc0 : statusConsistent
      { order_id := "uuid-" ++ toString st.next_uuid, session_id := session,
        symbol := symbol, side := side, order_type := .MARKET, price := none,
        quantity := Q, filled_quantity := 0, status := .OPEN, time_in_force := tif } := by
    unfold statusConsistent
    simp [hq]
  have hm := match_loop_statusConsistent
    ((ExchangeEngine.book (ExchangeEngine.putOrder { st with next_uuid := st.next_uuid + 1, account_manager := (st.account_manager.get_or_create_account session).1 } { order_id := "uuid-" ++ toString st.next_uuid, session_id := session, symbol := symbol, side := side, order_type := .MARKET, price := none, quantity := Q, filled_quantity := 0, status := .OPEN, time_in_force := tif }) symbol)._orders.length + 1)
    (ExchangeEngine.putOrder { st with next_uuid := st.next_uuid + 1, account_manager := (st.account_manager.get_or_create_account session).1 } { order_id := "uuid-" ++ toString st.next_uuid, session_id := session, symbol := symbol, side := side, order_type := .MARKET, price := none, quantity := Q, filled_quantity := 0, status := .OPEN, time_in_force := tif })
    { order_id := "uuid-" ++ toString st.next_uuid, session_id := session, symbol := symbol, side := side, order_type := .MARKET, price := none, quantity := Q, filled_quantity := 0, status := .OPEN, time_in_force := tif }
    [] (le_refl (0 : ℚ)) hc0
  refine ⟨(ExchangeEngine.match_loop (ExchangeEngine.putOrder { st with next_uuid := st.next_uuid + 1, account_manager := (st.account_manager.get_or_create_account session).1 } { order_id := "uuid-" ++ toString st.next_uuid, session_id := session, symbol := symbol, side := side, order_type := .MARKET, price := none, quantity := Q, filled_quantity := 0, status := .OPEN, time_in_force := tif }) { order_id := "uuid-" ++ toString st.next_uuid, session_id := session, symbol := symbol, side := side, order_type := .MARKET, price := none, quantity := Q, filled_quantity := 0, status := .OPEN, time_in_force := tif } [] ((ExchangeEngine.book (ExchangeEngine.putOrder { st with next_uuid := st.next_uuid + 1, account_manager := (st.account_manager.get_or_create_account session).1 } { order_id := "uuid-" ++ toString st.next_uuid, session_id := session, symbol := symbol, side := side, order_type := .MARKET, price := none, quantity := Q, filled_quantity := 0, status := .OPEN, time_in_force := tif }) symbol)._orders.length + 1)).2.1,
    (ExchangeEngine.match_loop (ExchangeEngine.putOrder { st with next_uuid := st.next_uuid + 1, account_manager := (st.account_manager.get_or_create_account session).1 } { order_id := "uuid-" ++ toString st.next_uuid, session_id := session, symbol := symbol, side := side, order_type := .MARKET, price := none, quantity := Q, filled_quantity := 0, status := .OPEN, time_in_force := tif }) { order_id := "uuid-" ++ toString st.next_uuid, session_id := session, symbol := symbol, side := side, order_type := .MARKET, price := none, quantity := Q, filled_quantity := 0, status := .OPEN, time_in_force := tif } [] ((ExchangeEngine.book (ExchangeEngine.putOrder { st with next_uuid := st.next_uuid + 1, account_manager := (st.account_manager.get_or_create_account session).1 } { order_id := "uuid-" ++ toString st.next_uuid, session_id := session, symbol := symbol, side := side, order_type := .MARKET, price := none, quantity := Q, filled_quantity := 0, status := .OPEN, time_in_force := tif }) symbol)._orders.length + 1)).2.2, rfl, hm.2.1, hm.2.2, ?_, ?_⟩
  · have hco := hm.2.1
    unfold statusConsistent at hco
    rw [hco]
    split_ifs <;> simp
  · intro hrem
    have hco := hm.2.1
    unfold statusConsistent at hco
    unfold Order.remaining_quantity at hrem
    rw [hco]
    rw [if_neg (by linarith)]
    constructor
    · intro h00
      rw [h00] at hco ⊢
      rw [if_neg (lt_irrefl 0)]
    · intro hpos
      rw [if_pos hpos]


/-- Witness for C4's amended statement: the concrete MARKET BUY of quantity 1
on an empty book, whose returned order is OPEN with its full quantity
remaining. -/
theorem market_remainder_status_witness :
    ∃ o fills,
      ((ExchangeEngine.init ["BTC/USD"]).place_order "T" "BTC/USD" .BUY .MARKET 1 none .GTC).2
        = .ok (o, fills) ∧
      statusConsistent o ∧ o.quantity = 1 ∧ o.status ≠ .CANCELLED ∧
      (0 < o.remaining_quantity →
        (o.filled_quantity = 0 → o.status = .OPEN) ∧
        (0 < o.filled_quantity → o.status = .PARTIALLY_FILLED)) :=
  market_remainder_status (ExchangeEngine.init ["BTC/USD"]) "T" "BTC/USD" .BUY 1 .GTC
    (by decide) (by norm_num)

/-- Remaining-quantity sums distribute over list append. -/
theorem sumRemaining_append (store : List (String × Order)) (l1 l2 : List String) :
    sumRemaining store (l1 ++ l2) = sumRemaining store l1 + sumRemaining store l2 := by
  unfold sumRemaining
  rw [List.map_append, List.sum_append]

/-- `Order.fill` decrements the remaining quantity by the filled amount and
preserves the order id. -/
theorem Order.fill_remaining (o : Order) (q : ℚ) :
    (o.fill q).remaining_quantity = o.remaining_quantity - q ∧
    (o.fill q).order_id = o.order_id := by
  simp only [Order.fill, Order.remaining_quantity]
  split_ifs <;> constructor <;> simp <;> ring

/-- Remaining quantity of an id after a store update. -/
theorem storeRemaining_insert (store : List (String × Order)) (k : String) (v : Order)
    (id : String) :
    storeRemaining (alistInsert store k v) id =
      if id = k then v.remaining_quantity else storeRemaining store id := by
  unfold storeRemaining
  by_cases h : id = k
  · subst h
    rw [alistFind?_insert_self, if_pos rfl]
  · rw [alistFind?_insert_ne _ _ _ _ h, if_neg h]

/-- When one id of a list (occurring once) loses q of remaining quantity
and the others are untouched, the sum drops by q. -/
theorem sumRemaining_update (store store' : List (String × Order)) (mid : String) (q : ℚ) :
    ∀ ids : List String,
    (∀ id ∈ ids, id ≠ mid → storeRemaining store' id = storeRemaining store id) →
    storeRemaining store' mid = storeRemaining store mid - q →
    ids.count mid = 1 →
    sumRemaining store' ids = sumRemaining store ids - q := by
  intro ids
  induction ids with
  | nil => intro _ _ hc; simp [List.count] at hc
  | cons a rest ih =>
    intro hother hmid hc
    by_cases ha : a = mid
    · subst ha
      have hrest : rest.count a = 0 := by
        rw [List.count_cons_self] at hc
        omega
      have hsame : sumRemaining store' rest = sumRemaining store rest := by
        unfold sumRemaining
        congr 1
        apply List.map_congr_left
        intro x hx
        have hxa : x ≠ a := by
          intro hxe
          subst hxe
          rw [List.count_eq_zero] at hrest
          exact hrest hx
        exact hother x (List.mem_cons_of_mem _ hx) hxa
      show sumRemaining store' (a :: rest) = sumRemaining store (a :: rest) - q
      unfold sumRemaining
      simp only [List.map_cons, List.sum_cons]
      unfold sumRemaining at hsame
      rw [hmid, hsame]
      ring
    · have hc' : rest.count mid = 1 := by
        rw [List.count_cons_of_ne (fun h => ha h.symm)] at hc
        exact hc
      have := ih (fun id hid hne => hother id (List.mem_cons_of_mem _ hid) hne) hmid hc'
      show sumRemaining store' (a :: rest) = sumRemaining store (a :: rest) - q
      unfold sumRemaining
      simp only [List.map_cons, List.sum_cons]
      unfold sumRemaining at this
      rw [this, hother a (List.mem_cons_self a rest) ha]
      ring


/-- `PriceLevel.add_order` preserves the total/sum consistency, provided the
store already holds the added order. -/
theorem level_add_consistent (store : List (String × Order)) (lvl : PriceLevel) (o : Order)
    (hinv : levelTotalConsistent store lvl)
    (ho : alistFind? store o.order_id = some o) :
    levelTotalConsistent store (lvl.add_order o) := by
  unfold levelTotalConsistent PriceLevel.add_order at *
  simp only
  rw [sumRemaining_append, hinv]
  unfold sumRemaining storeRemaining
  simp [ho]

/-- `PriceLevel.remove_order` preserves the total/sum consistency (it
recomputes the sum outright when it removes). -/
theorem level_remove_consistent (store : List (String × Order)) (lvl : PriceLevel)
    (oid : String) (hinv : levelTotalConsistent store lvl) :
    levelTotalConsistent store (lvl.remove_order store oid) := by
  unfold PriceLevel.remove_order
  by_cases h : lvl.orders.contains oid
  · simp only [if_pos h]
    unfold levelTotalConsistent
    simp
  · simp only [if_neg h]
    exact hinv

/-- The order store and books after a successful `_execute_fill`: the taker
and maker are updated in the store; no order book is touched. -/
theorem execute_fill_projections (st : ExchangeEngine) (taker maker : Order)
    (maker_id : String) (price : ℚ)
    (hm : alistFind? st._all_orders maker_id = some maker)
    (hq : ¬ min taker.remaining_quantity maker.remaining_quantity ≤ 0) :
    (st.execute_fill taker maker_id price).1._all_orders =
      alistInsert (alistInsert st._all_orders
        (taker.fill (min taker.remaining_quantity maker.remaining_quantity)).order_id
        (taker.fill (min taker.remaining_quantity maker.remaining_quantity)))
        (maker.fill (min taker.remaining_quantity maker.remaining_quantity)).order_id
        (maker.fill (min taker.remaining_quantity maker.remaining_quantity)) ∧
    (st.execute_fill taker maker_id price).1.orderbooks = st.orderbooks := by
  simp only [ExchangeEngine.execute_fill, hm, if_neg hq, ExchangeEngine.putOrder,
    ExchangeEngine.fresh]
  constructor
  · split
    · split
      · rfl
      · rfl
    · split
      · rfl
      · rfl
  · split
    · split
      · rfl
      · rfl
    · split
      · rfl
      · rfl


/-- A partial fill of a resting maker leaves every book level untouched while
shrinking the maker's remaining quantity, so a level holding the maker now
overstates the sum of remaining quantities by exactly the fill quantity. -/
theorem execute_fill_total_stale (st : ExchangeEngine) (taker maker : Order)
    (maker_id : String) (lvl : PriceLevel) (price : ℚ)
    (hm : alistFind? st._all_orders maker_id = some maker)
    (hmid : maker.order_id = maker_id)
    (hq : 0 < min taker.remaining_quantity maker.remaining_quantity)
    (htk : taker.order_id ∉ lvl.orders)
    (hcount : lvl.orders.count maker_id = 1)
    (hinv : levelTotalConsistent st._all_orders lvl) :
    (st.execute_fill taker maker_id price).1.orderbooks = st.orderbooks ∧
    sumRemaining (st.execute_fill taker maker_id price).1._all_orders lvl.orders =
      lvl.total_quantity - min taker.remaining_quantity maker.remaining_quantity ∧
    ¬ levelTotalConsistent (st.execute_fill taker maker_id price).1._all_orders lvl := by
  have hq' : ¬ min taker.remaining_quantity maker.remaining_quantity ≤ 0 := not_le.mpr hq
  obtain ⟨hstore, hbooks⟩ := execute_fill_projections st taker maker maker_id price hm hq'
  have hmakerid : (maker.fill (min taker.remaining_quantity maker.remaining_quantity)).order_id
      = maker_id := by
    rw [(Order.fill_remaining maker _).2, hmid]
  have htakerid : (taker.fill (min taker.remaining_quantity maker.remaining_quantity)).order_id
      = taker.order_id :=
    (Order.fill_remaining taker _).2
  have hsum : sumRemaining (st.execute_fill taker maker_id price).1._all_orders lvl.orders =
      sumRemaining st._all_orders lvl.orders -
        min taker.remaining_quantity maker.remaining_quantity := by
    apply sumRemaining_update
    · intro id hid hne
      rw [hstore, storeRemaining_insert, storeRemaining_insert, hmakerid, htakerid]
      rw [if_neg hne, if_neg (show ¬ id = taker.order_id from fun h => htk (h ▸ hid))]
    · rw [hstore, storeRemaining_insert, hmakerid, if_pos rfl]
      rw [(Order.fill_remaining maker _).1]
      unfold storeRemaining
      rw [hm]
    · exact hcount
  have hfinal : sumRemaining (st.execute_fill taker maker_id price).1._all_orders lvl.orders =
      lvl.total_quantity - min taker.remaining_quantity maker.remaining_quantity := by
    rw [hsum]
    unfold levelTotalConsistent at hinv
    rw [hinv]
  refine ⟨hbooks, hfinal, ?_⟩
  intro hc
  unfold levelTotalConsistent at hc
  rw [hfinal] at hc
  linarith


/-- C8 as amended: the stored `total_quantity` of a price level equals the sum
of its orders' remaining quantities after `add_order` and `remove_order` (the
operations that maintain it) — but matching that partially fills a resting
maker updates no book level, so the level holding that maker is left with
`total_quantity` exceeding the sum of remaining quantities by the filled
amount, and `get_depth` reports that stale total until the next add or
remove at the level. -/
theorem level_total_quantity_amended :
    (∀ (store : List (String × Order)) (lvl : PriceLevel) (o : Order),
      levelTotalConsistent store lvl → alistFind? store o.order_id = some o →
      levelTotalConsistent store (lvl.add_order o)) ∧
    (∀ (store : List (String × Order)) (lvl : PriceLevel) (oid : String),
      levelTotalConsistent store lvl →
      levelTotalConsistent store (lvl.remove_order store oid)) ∧
    (∀ (st : ExchangeEngine) (taker maker : Order) (maker_id : String)
        (lvl : PriceLevel) (price : ℚ),
      alistFind? st._all_orders maker_id = some maker →
      maker.order_id = maker_id →
      0 < min taker.remaining_quantity maker.remaining_quantity →
      taker.order_id ∉ lvl.orders →
      lvl.orders.count maker_id = 1 →
      levelTotalConsistent st._all_orders lvl →
      (st.execute_fill taker maker_id price).1.orderbooks = st.orderbooks ∧
      sumRemaining (st.execute_fill taker maker_id price).1._all_orders lvl.orders =
        lvl.total_quantity - min taker.remaining_quantity maker.remaining_quantity ∧
      ¬ levelTotalConsistent (st.execute_fill taker maker_id price).1._all_orders lvl) :=
  ⟨level_add_consistent, level_remove_consistent,
   fun st taker maker maker_id lvl price hm hmid hq htk hcount hinv =>
     execute_fill_total_stale st taker maker maker_id lvl price hm hmid hq htk hcount hinv⟩

/-- Witness for C8's amended statement at the counterexample's configuration:
maker m rests SELL 2 @ 100 (level total 2); a taker fill of min(1, 2) = 1
leaves the books untouched and the level's sum at 1 — the invariant fails. -/
theorem level_total_quantity_amended_witness :
    (let maker : Order :=
       { order_id := "m", session_id := "M", symbol := "BTC/USD", side := .SELL,
         order_type := .LIMIT, price := some 100, quantity := 2,
         filled_quantity := 0, status := .OPEN, time_in_force := .GTC }
     let taker : Order :=
       { order_id := "t", session_id := "T", symbol := "BTC/USD", side := .BUY,
         order_type := .MARKET, price := none, quantity := 1,
         filled_quantity := 0, status := .OPEN, time_in_force := .GTC }
     let st : ExchangeEngine :=
       { symbols := ["BTC/USD"], orderbooks := [], account_manager := {},
         _all_orders := [("m", maker)] }
     let lvl : PriceLevel := { price := 100, orders := ["m"], total_quantity := 2 }
     (st.execute_fill taker "m" 100).1.orderbooks = st.orderbooks ∧
     sumRemaining (st.execute_fill taker "m" 100).1._all_orders lvl.orders =
       lvl.total_quantity - min taker.remaining_quantity maker.remaining_quantity ∧
     ¬ levelTotalConsistent (st.execute_fill taker "m" 100).1._all_orders lvl) := by
  exact level_total_quantity_amended.2.2 _ _ _ "m" _ 100
    rfl rfl (of_decide_eq_true (by with_unfolding_all rfl)) (by decide) (by decide)
    (by unfold levelTotalConsistent; with_unfolding_all rfl)


theorem Order.fill_fields (o : Order) (q : ℚ) :
    (o.fill q).order_id = o.order_id ∧
    (o.fill q).session_id = o.session_id ∧
    (o.fill q).symbol = o.symbol ∧
    (o.fill q).side = o.side ∧
    (o.fill q).order_type = o.order_type ∧
    (o.fill q).price = o.price ∧
    (o.fill q).quantity = o.quantity := by
  simp only [Order.fill]
  split_ifs <;> exact ⟨rfl, rfl, rfl, rfl, rfl, rfl, rfl⟩

theorem specAccepts_fill (o : Order) (q : ℚ) :
    specAccepts (o.fill q) = specAccepts o := by
  funext best
  unfold specAccepts
  rw [(Order.fill_fields o q).2.2.2.1, (Order.fill_fields o q).2.2.2.2.1,
    (Order.fill_fields o q).2.2.2.2.2.1]

theorem specAccepts_not_unacceptable (o : Order) (best : ℚ) :
    specAccepts o best = ! priceUnacceptable o best := by
  obtain ⟨oid, sid, sym, side, otype, price, qty, fq, stt, tif⟩ := o
  cases otype <;> cases price <;> cases side <;>
    simp [specAccepts, priceUnacceptable, decide_eq_true_eq, not_lt, le_of_lt] <;>
    rw [Bool.eq_iff_iff] <;>
    simp [not_lt]

theorem specFills_nonpos (accept : ℚ → Bool) (fuel : Nat) (rem : ℚ)
    (lvls : List (ℚ × List ℚ)) (h : rem ≤ 0) :
    specFills accept fuel rem lvls = [] := by
  cases fuel with
  | zero => rfl
  | succ fuel =>
    cases lvls with
    | nil => rfl
    | cons l rest =>
      obtain ⟨p, ms⟩ := l
      unfold specFills
      rw [if_pos h]

theorem Order.fill_filled_quantity (o : Order) (q : ℚ) :
    (o.fill q).filled_quantity = o.filled_quantity + q := by
  have h1 := (Order.fill_remaining o q).1
  unfold Order.remaining_quantity at h1
  have h2 := (Order.fill_fields o q).2.2.2.2.2.2
  linarith

theorem Order.fill_is_filled_iff (o : Order) (q : ℚ) :
    (o.fill q).is_filled = true ↔ o.remaining_quantity ≤ q := by
  rw [show (o.fill q).is_filled =
      decide ((o.fill q).quantity ≤ (o.fill q).filled_quantity) from rfl]
  rw [decide_eq_true_eq, (Order.fill_fields o q).2.2.2.2.2.2, Order.fill_filled_quantity]
  unfold Order.remaining_quantity
  constructor <;> intro <;> linarith


theorem execute_fill_result (st : ExchangeEngine) (taker maker : Order)
    (maker_id : String) (price : ℚ)
    (hm : alistFind? st._all_orders maker_id = some maker)
    (hq : ¬ min taker.remaining_quantity maker.remaining_quantity ≤ 0) :
    (st.execute_fill taker maker_id price).2.1 =
      taker.fill (min taker.remaining_quantity maker.remaining_quantity) ∧
    (st.execute_fill taker maker_id price).2.2 =
      some { fill_id := "uuid-" ++ toString st.next_uuid, order_id := taker.order_id,
             session_id := taker.session_id, symbol := taker.symbol, side := taker.side,
             price := price,
             quantity := min taker.remaining_quantity maker.remaining_quantity,
             is_maker := false } := by
  simp only [ExchangeEngine.execute_fill, hm, if_neg hq, ExchangeEngine.putOrder,
    ExchangeEngine.fresh]
  constructor <;> trivial

theorem levelView_congr (store store' : List (String × Order)) (lvl : PriceLevel)
    (h : ∀ id ∈ lvl.orders, storeRemaining store' id = storeRemaining store id) :
    levelView store' lvl = levelView store lvl := by
  unfold levelView
  congr 1
  exact List.map_congr_left h

theorem sideView_congr (store store' : List (String × Order)) (lvls : List PriceLevel)
    (h : ∀ id ∈ List.flatMap lvls PriceLevel.orders,
      storeRemaining store' id = storeRemaining store id) :
    sideView store' lvls = sideView store lvls := by
  unfold sideView
  apply List.map_congr_left
  intro lvl hlvl
  apply levelView_congr
  intro id hid
  exact h id (List.mem_flatMap.mpr ⟨lvl, hlvl, hid⟩)

theorem book_of_orderbooks_eq (st st' : ExchangeEngine)
    (h : st'.orderbooks = st.orderbooks) (sym : String) :
    st'.book sym = st.book sym := by
  unfold ExchangeEngine.book
  rw [h]


theorem store_after_fill_lookup (st : ExchangeEngine) (taker maker : Order)
    (maker_id : String) (price : ℚ)
    (hm : alistFind? st._all_orders maker_id = some maker)
    (hq : ¬ min taker.remaining_quantity maker.remaining_quantity ≤ 0)
    (hmid : maker.order_id = maker_id)
    (htid : taker.order_id ≠ maker_id) :
    (∀ id, id ≠ maker_id → id ≠ taker.order_id →
      alistFind? (st.execute_fill taker maker_id price).1._all_orders id =
        alistFind? st._all_orders id) ∧
    alistFind? (st.execute_fill taker maker_id price).1._all_orders maker_id =
      some (maker.fill (min taker.remaining_quantity maker.remaining_quantity)) ∧
    alistFind? (st.execute_fill taker maker_id price).1._all_orders taker.order_id =
      some (taker.fill (min taker.remaining_quantity maker.remaining_quantity)) := by
  have hs := (execute_fill_projections st taker maker maker_id price hm hq).1
  have hkm : (maker.fill (min taker.remaining_quantity maker.remaining_quantity)).order_id
      = maker_id := by rw [(Order.fill_fields maker _).1, hmid]
  have hkt : (taker.fill (min taker.remaining_quantity maker.remaining_quantity)).order_id
      = taker.order_id := (Order.fill_fields taker _).1
  refine ⟨?_, ?_, ?_⟩
  · intro id h1 h2
    rw [hs, hkm, hkt, alistFind?_insert_ne _ _ _ _ h1, alistFind?_insert_ne _ _ _ _ h2]
  · rw [hs, hkm, alistFind?_insert_self]
  · rw [hs, hkm, hkt, alistFind?_insert_ne _ _ _ _ htid, alistFind?_insert_self]

theorem storeRemaining_after_fill (st : ExchangeEngine) (taker maker : Order)
    (maker_id : String) (price : ℚ)
    (hm : alistFind? st._all_orders maker_id = some maker)
    (hq : ¬ min taker.remaining_quantity maker.remaining_quantity ≤ 0)
    (hmid : maker.order_id = maker_id)
    (htid : taker.order_id ≠ maker_id) :
    ∀ id, id ≠ maker_id → id ≠ taker.order_id →
      storeRemaining (st.execute_fill taker maker_id price).1._all_orders id =
        storeRemaining st._all_orders id := by
  intro id h1 h2
  unfold storeRemaining
  rw [(store_after_fill_lookup st taker maker maker_id price hm hq hmid htid).1 id h1 h2]

theorem remove_order_matched_side (ob : OrderBook) (store' : List (String × Order))
    (mid : String) (o' : Order) (lvl : PriceLevel) (t : List String)
    (rest : List PriceLevel)
    (hmem : mid ∈ ob._orders)
    (hfind : alistFind? store' mid = some o')
    (hprice : o'.price = some lvl.price)
    (hord : lvl.orders = mid :: t) :
    ((o'.side = .SELL ∧ ob.asks = lvl :: rest) →
      (ob.remove_order store' mid).1.asks =
        (if t.isEmpty then rest
         else { price := lvl.price, orders := t,
                total_quantity := sumRemaining store' t } :: rest) ∧
      (ob.remove_order store' mid).1.bids = ob.bids ∧
      (ob.remove_order store' mid).1._orders = ob._orders.erase mid) ∧
    ((o'.side = .BUY ∧ ob.bids = lvl :: rest) →
      (ob.remove_order store' mid).1.bids =
        (if t.isEmpty then rest
         else { price := lvl.price, orders := t,
                total_quantity := sumRemaining store' t } :: rest) ∧
      (ob.remove_order store' mid).1.asks = ob.asks ∧
      (ob.remove_order store' mid).1._orders = ob._orders.erase mid) := by
  have hcont : ob._orders.contains mid = true := List.elem_eq_true_of_mem hmem
  have hlvlrm : lvl.remove_order store' mid =
      { price := lvl.price, orders := t, total_quantity := sumRemaining store' t } := by
    unfold PriceLevel.remove_order
    rw [if_pos (by rw [hord]; simp : lvl.orders.contains mid = true)]
    rw [hord, List.erase_cons_head]
  constructor
  · rintro ⟨hside, hasks⟩
    unfold OrderBook.remove_order
    rw [if_pos hcont, hfind]
    simp only [hprice, hside, hasks]
    refine ⟨?_, by trivial, by trivial⟩
    unfold removeFromLevels
    rw [if_pos rfl, hlvlrm]
    by_cases ht : t.isEmpty
    · rw [if_pos (by simpa [PriceLevel.is_empty] using ht), if_pos ht]
    · rw [if_neg (by simpa [PriceLevel.is_empty] using ht), if_neg ht]
  · rintro ⟨hside, hbids⟩
    unfold OrderBook.remove_order
    rw [if_pos hcont, hfind]
    simp only [hprice, hside, hbids]
    refine ⟨?_, by trivial, by trivial⟩
    unfold removeFromLevels
    rw [if_pos rfl, hlvlrm]
    by_cases ht : t.isEmpty
    · rw [if_pos (by simpa [PriceLevel.is_empty] using ht), if_pos ht]
    · rw [if_neg (by simpa [PriceLevel.is_empty] using ht), if_neg ht]


theorem setBook_book (st : ExchangeEngine) (sym : String) (ob : OrderBook) :
    (st.setBook sym ob).book sym = ob := by
  unfold ExchangeEngine.setBook ExchangeEngine.book
  simp [alistFind?_insert_self]

theorem matchSide_after_fill (st : ExchangeEngine) (taker maker : Order)
    (maker_id : String) (price : ℚ)
    (hm : alistFind? st._all_orders maker_id = some maker)
    (hq : ¬ min taker.remaining_quantity maker.remaining_quantity ≤ 0) :
    ExchangeEngine.matchSide (st.execute_fill taker maker_id price).1
      (st.execute_fill taker maker_id price).2.1 = st.matchSide taker := by
  unfold ExchangeEngine.matchSide
  rw [(execute_fill_result st taker maker maker_id price hm hq).1]
  rw [(Order.fill_fields taker _).2.2.1, (Order.fill_fields taker _).2.2.2.1]
  rw [book_of_orderbooks_eq st _
    (execute_fill_projections st taker maker maker_id price hm hq).2 taker.symbol]

theorem wf_after_partial_fill (st : ExchangeEngine) (taker : Order)
    (lvl : PriceLevel) (rest : List PriceLevel) (mid : String) (t : List String)
    (o : Order)
    (hwf : MatchWF st taker)
    (hlv : st.matchSide taker = lvl :: rest)
    (hord : lvl.orders = mid :: t)
    (ho : alistFind? st._all_orders mid = some o)
    (hoid : o.order_id = mid)
    (hnotfull : ¬ o.remaining_quantity ≤ min taker.remaining_quantity o.remaining_quantity)
    (hq : ¬ min taker.remaining_quantity o.remaining_quantity ≤ 0) :
    MatchWF (st.execute_fill taker mid lvl.price).1
      ((st.execute_fill taker mid lvl.price).2.1) := by
  have hmidmem : mid ∈ List.flatMap (st.matchSide taker) PriceLevel.orders := by
    rw [hlv]
    simp [List.flatMap_cons, hord]
  have htid : taker.order_id ≠ mid := fun h => hwf.taker_fresh (h ▸ hmidmem)
  have hms := matchSide_after_fill st taker o mid lvl.price ho hq
  have hlook := store_after_fill_lookup st taker o mid lvl.price ho hq hoid htid
  have htfields := Order.fill_fields taker (min taker.remaining_quantity o.remaining_quantity)
  have hofields := Order.fill_fields o (min taker.remaining_quantity o.remaining_quantity)
  have hbooks := (execute_fill_projections st taker o mid lvl.price ho hq).2
  refine ⟨?_, ?_, ?_, ?_, ?_⟩
  · intro l hl
    rw [hms] at hl
    exact hwf.levels_nonempty l hl
  · rw [hms]
    exact hwf.nodup
  · intro l hl id hid
    rw [hms] at hl
    obtain ⟨o', ho', hoid', hrem', hprice', hside', hsym'⟩ := hwf.maker_ok l hl id hid
    by_cases hidm : id = mid
    · cases hidm.symm
      have : o' = o := by rw [ho'] at ho; exact (Option.some.injEq _ _).mp ho.symm |>.symm
      subst this
      refine ⟨o'.fill (min taker.remaining_quantity o'.remaining_quantity),
        hlook.2.1, ?_, ?_, ?_, ?_, ?_⟩
      · rw [(Order.fill_fields o' _).1, hoid']
      · rw [(Order.fill_remaining o' _).1]
        have := lt_of_not_le hnotfull
        linarith
      · rw [(Order.fill_fields o' _).2.2.2.2.2.1, hprice']
      · rw [(Order.fill_fields o' _).2.2.2.1, hside',
          (execute_fill_result st taker o' mid lvl.price ho hq).1, htfields.2.2.2.1]
      · rw [(Order.fill_fields o' _).2.2.1, hsym',
          (execute_fill_result st taker o' mid lvl.price ho hq).1, htfields.2.2.1]
    · have hidt : id ≠ taker.order_id := by
        intro h
        exact hwf.taker_fresh (h ▸ List.mem_flatMap.mpr ⟨l, hl, hid⟩)
      refine ⟨o', ?_, hoid', hrem', hprice', ?_, ?_⟩
      · rw [hlook.1 id hidm hidt]
        exact ho'
      · rw [hside', (execute_fill_result st taker o mid lvl.price ho hq).1,
          htfields.2.2.2.1]
      · rw [hsym', (execute_fill_result st taker o mid lvl.price ho hq).1,
          htfields.2.2.1]
  · intro l hl id hid
    rw [hms] at hl
    rw [(execute_fill_result st taker o mid lvl.price ho hq).1, htfields.2.2.1]
    rw [book_of_orderbooks_eq st _ hbooks taker.symbol]
    exact hwf.indexed l hl id hid
  · rw [hms, (execute_fill_result st taker o mid lvl.price ho hq).1, htfields.1]
    exact hwf.taker_fresh


theorem removal_books (st' : ExchangeEngine) (taker' : Order) (ob : OrderBook)
    (mid : String) (o' : Order) (lvl : PriceLevel) (t : List String)
    (rest : List PriceLevel)
    (hob : st'.book taker'.symbol = ob)
    (hmem : mid ∈ ob._orders)
    (hfind : alistFind? st'._all_orders mid = some o')
    (hprice : o'.price = some lvl.price)
    (hord : lvl.orders = mid :: t)
    (hmatch : (if taker'.side = .BUY then ob.asks else ob.bids) = lvl :: rest)
    (hside : o'.side = (if taker'.side = .BUY then OrderSide.SELL else OrderSide.BUY)) :
    ExchangeEngine.matchSide
      (st'.setBook taker'.symbol
        ((st'.book taker'.symbol).remove_order st'._all_orders mid).1) taker' =
      (if t.isEmpty then rest
       else { price := lvl.price, orders := t,
              total_quantity := sumRemaining st'._all_orders t } :: rest) ∧
    ((st'.setBook taker'.symbol
        ((st'.book taker'.symbol).remove_order st'._all_orders mid).1).book
      taker'.symbol)._orders = ob._orders.erase mid ∧
    (st'.setBook taker'.symbol
      ((st'.book taker'.symbol).remove_order st'._all_orders mid).1)._all_orders =
      st'._all_orders := by
  have hbook2 : ((st'.setBook taker'.symbol
      ((st'.book taker'.symbol).remove_order st'._all_orders mid).1).book
        taker'.symbol) = (ob.remove_order st'._all_orders mid).1 := by
    rw [setBook_book, hob]
  cases hbs : taker'.side with
  | BUY =>
    rw [hbs] at hmatch hside
    rw [if_pos rfl] at hmatch
    rw [if_pos rfl] at hside
    have hrm := (remove_order_matched_side ob st'._all_orders mid o' lvl t rest
      hmem hfind hprice hord).1 ⟨hside, hmatch⟩
    refine ⟨?_, ?_, rfl⟩
    · unfold ExchangeEngine.matchSide
      rw [hbs, if_pos rfl, hbook2]
      exact hrm.1
    · rw [hbook2]
      exact hrm.2.2
  | SELL =>
    rw [hbs] at hmatch hside
    rw [if_neg (by simp)] at hmatch
    rw [if_neg (by simp)] at hside
    have hrm := (remove_order_matched_side ob st'._all_orders mid o' lvl t rest
      hmem hfind hprice hord).2 ⟨hside, hmatch⟩
    refine ⟨?_, ?_, rfl⟩
    · unfold ExchangeEngine.matchSide
      rw [hbs, if_neg (by simp), hbook2]
      exact hrm.1
    · rw [hbook2]
      exact hrm.2.2

theorem wf_of_removed (st st' st2 : ExchangeEngine) (taker taker' : Order)
    (lvl : PriceLevel) (rest : List PriceLevel) (mid : String) (t : List String)
    (hwf : MatchWF st taker)
    (hlv : st.matchSide taker = lvl :: rest)
    (hord : lvl.orders = mid :: t)
    (hstore : ∀ id, id ≠ mid → id ≠ taker.order_id →
      alistFind? st'._all_orders id = alistFind? st._all_orders id)
    (hsym : taker'.symbol = taker.symbol)
    (hside : taker'.side = taker.side)
    (htid : taker'.order_id = taker.order_id)
    (hstore2 : st2._all_orders = st'._all_orders)
    (hms2 : st2.matchSide taker' =
      (if t.isEmpty then rest
       else { price := lvl.price, orders := t,
              total_quantity := sumRemaining st'._all_orders t } :: rest))
    (hidx2 : (st2.book taker'.symbol)._orders =
      (st.book taker.symbol)._orders.erase mid) :
    MatchWF st2 taker' := by
  have hnd : (mid :: (t ++ List.flatMap rest PriceLevel.orders)).Nodup := by
    have h0 := hwf.nodup
    rw [hlv] at h0
    simpa [List.flatMap_cons, hord] using h0
  have hmidnot : mid ∉ t ++ List.flatMap rest PriceLevel.orders :=
    (List.nodup_cons.mp hnd).1
  have hndtail : (t ++ List.flatMap rest PriceLevel.orders).Nodup :=
    (List.nodup_cons.mp hnd).2
  have hmm : ∀ l ∈ st2.matchSide taker', ∀ id ∈ l.orders,
      ∃ l0, l0 ∈ st.matchSide taker ∧ id ∈ l0.orders ∧ l0.price = l.price ∧
        id ≠ mid := by
    intro l hl id hid
    rw [hms2] at hl
    by_cases ht : t.isEmpty
    · rw [if_pos ht] at hl
      refine ⟨l, ?_, hid, rfl, ?_⟩
      · rw [hlv]
        exact List.mem_cons_of_mem _ hl
      · intro he
        exact hmidnot (List.mem_append_right t
          (he ▸ List.mem_flatMap.mpr ⟨l, hl, hid⟩))
    · rw [if_neg ht] at hl
      rcases List.mem_cons.mp hl with rfl | hl2
      · refine ⟨lvl, ?_, ?_, rfl, ?_⟩
        · rw [hlv]
          exact List.mem_cons_self _ _
        · rw [hord]
          exact List.mem_cons_of_mem _ hid
        · intro he
          exact hmidnot (List.mem_append_left _ (he ▸ hid))
      · refine ⟨l, ?_, hid, rfl, ?_⟩
        · rw [hlv]
          exact List.mem_cons_of_mem _ hl2
        · intro he
          exact hmidnot (List.mem_append_right t
            (he ▸ List.mem_flatMap.mpr ⟨l, hl2, hid⟩))
  refine ⟨?_, ?_, ?_, ?_, ?_⟩
  · intro l hl
    rw [hms2] at hl
    by_cases ht : t.isEmpty
    · rw [if_pos ht] at hl
      exact hwf.levels_nonempty l (by rw [hlv]; exact List.mem_cons_of_mem _ hl)
    · rw [if_neg ht] at hl
      rcases List.mem_cons.mp hl with rfl | hl2
      · simpa [List.isEmpty_iff] using ht
      · exact hwf.levels_nonempty l (by rw [hlv]; exact List.mem_cons_of_mem _ hl2)
  · rw [hms2]
    by_cases ht : t.isEmpty
    · rw [if_pos ht]
      exact (List.nodup_append.mp hndtail).2.1
    · rw [if_neg ht]
      simpa [List.flatMap_cons] using hndtail
  · intro l hl id hid
    obtain ⟨l0, hl0, hid0, hp0, hnemid⟩ := hmm l hl id hid
    obtain ⟨oo, hoo, h1, h2, h3, h4, h5⟩ := hwf.maker_ok l0 hl0 id hid0
    have hnetid : id ≠ taker.order_id := fun he =>
      hwf.taker_fresh (he ▸ List.mem_flatMap.mpr ⟨l0, hl0, hid0⟩)
    refine ⟨oo, ?_, h1, h2, ?_, ?_, ?_⟩
    · rw [hstore2, hstore id hnemid hnetid]
      exact hoo
    · rw [h3, hp0]
    · rw [h4, hside]
    · rw [h5, hsym]
  · intro l hl id hid
    obtain ⟨l0, hl0, hid0, _, hnemid⟩ := hmm l hl id hid
    rw [hidx2]
    exact (List.mem_erase_of_ne hnemid).mpr (hwf.indexed l0 hl0 id hid0)
  · intro hmemt
    obtain ⟨l, hl, hid⟩ := List.mem_flatMap.mp hmemt
    obtain ⟨l0, hl0, hid0, _, _⟩ := hmm l hl _ hid
    exact hwf.taker_fresh (htid ▸ List.mem_flatMap.mpr ⟨l0, hl0, hid0⟩)


theorem match_loop_spec_aux (fuel : Nat) :
    ∀ (st : ExchangeEngine) (taker : Order) (fills : List Fill),
      MatchWF st taker →
      ((st.match_loop taker fills fuel).2.2).map (fun f => (f.price, f.quantity)) =
        fills.map (fun f => (f.price, f.quantity)) ++
          specFills (specAccepts taker) fuel taker.remaining_quantity
            (sideView st._all_orders (st.matchSide taker)) := by
  induction fuel with
  | zero =>
    intro st taker fills _
    simp [ExchangeEngine.match_loop, specFills]
  | succ fuel ih =>
    intro st taker fills hwf
    unfold ExchangeEngine.match_loop
    by_cases hrem : taker.remaining_quantity ≤ 0
    · simp only [if_pos hrem]
      rw [specFills_nonpos _ _ _ _ hrem, List.append_nil]
    · simp only [if_neg hrem]
      rcases hlv : (if taker.side = .BUY then (st.book taker.symbol).asks
          else (st.book taker.symbol).bids) with _ | ⟨lvl, rest⟩
      · have hlv' : st.matchSide taker = [] := hlv
        simp only [hlv, hlv']
        rw [show specFills (specAccepts taker) (fuel + 1) taker.remaining_quantity
          (sideView st._all_orders []) = [] from rfl, List.append_nil]
      · have hlv' : st.matchSide taker = lvl :: rest := hlv
        have hlvlmem : lvl ∈ st.matchSide taker := by
          rw [hlv']
          exact List.mem_cons_self _ _
        simp only [hlv]
        rw [hlv']
        by_cases hpu : priceUnacceptable taker lvl.price
        · simp only [if_pos hpu]
          have hspec0 : specFills (specAccepts taker) (fuel + 1)
              taker.remaining_quantity (sideView st._all_orders (lvl :: rest)) = [] := by
            show specFills (specAccepts taker) (fuel + 1) taker.remaining_quantity
              ((lvl.price, lvl.orders.map (storeRemaining st._all_orders)) ::
                sideView st._all_orders rest) = []
            simp only [specFills]
            rw [if_neg hrem, if_pos (by
              rw [specAccepts_not_unacceptable, hpu]
              exact Bool.false_ne_true)]
          rw [hspec0, List.append_nil]
        · simp only [if_neg hpu]
          have hacc : specAccepts taker lvl.price = true := by
            rw [specAccepts_not_unacceptable, Bool.eq_false_iff.mpr hpu]
            rfl
          by_cases hemp : lvl.is_empty
          · exact absurd (List.isEmpty_iff.mp hemp) (hwf.levels_nonempty lvl hlvlmem)
          · simp only [if_neg hemp]
            rcases hords : lvl.orders with _ | ⟨maker_id, t⟩
            · exact absurd hords (hwf.levels_nonempty lvl hlvlmem)
            · simp only [hords]
              have hmidmem : maker_id ∈ lvl.orders := by
                rw [hords]
                exact List.mem_cons_self _ _
              have hmidflat :
                  maker_id ∈ List.flatMap (st.matchSide taker) PriceLevel.orders :=
                List.mem_flatMap.mpr ⟨lvl, hlvlmem, hmidmem⟩
              have htidne : taker.order_id ≠ maker_id := fun he =>
                hwf.taker_fresh (he ▸ hmidflat)
              obtain ⟨o, ho, hoid, hopos, hoprice, hoside, hosym⟩ :=
                hwf.maker_ok lvl hlvlmem maker_id hmidmem
              have hqpos : ¬ min taker.remaining_quantity o.remaining_quantity ≤ 0 :=
                not_le.mpr (lt_min (lt_of_not_le hrem) hopos)
              have hres := execute_fill_result st taker o maker_id lvl.price ho hqpos
              have hlook := store_after_fill_lookup st taker o maker_id lvl.price
                ho hqpos hoid htidne
              have hbooks :=
                (execute_fill_projections st taker o maker_id lvl.price ho hqpos).2
              have hsr := storeRemaining_after_fill st taker o maker_id lvl.price
                ho hqpos hoid htidne
              have htk := hres.1
              have hm : storeRemaining st._all_orders maker_id =
                  o.remaining_quantity := by
                unfold storeRemaining
                rw [ho]
              have hsymE :
                  (st.execute_fill taker maker_id lvl.price).2.1.symbol =
                    taker.symbol := by
                rw [htk]
                exact (Order.fill_fields taker _).2.2.1
              have hsideE :
                  (st.execute_fill taker maker_id lvl.price).2.1.side =
                    taker.side := by
                rw [htk]
                exact (Order.fill_fields taker _).2.2.2.1
              have htidE :
                  (st.execute_fill taker maker_id lvl.price).2.1.order_id =
                    taker.order_id := by
                rw [htk]
                exact (Order.fill_fields taker _).1
              have hnd :
                  (maker_id :: (t ++ List.flatMap rest PriceLevel.orders)).Nodup := by
                have h0 := hwf.nodup
                rw [hlv'] at h0
                simpa [List.flatMap_cons, hords] using h0
              have hmidnot := (List.nodup_cons.mp hnd).1
              have hcr : ∀ id ∈ List.flatMap rest PriceLevel.orders,
                  storeRemaining
                    (st.execute_fill taker maker_id lvl.price).1._all_orders id =
                  storeRemaining st._all_orders id := by
                intro id hidr
                obtain ⟨l, hlrest, hidl⟩ := List.mem_flatMap.mp hidr
                refine hsr id
                  (fun he => hmidnot (List.mem_append_right t (he ▸ hidr)))
                  (fun he => hwf.taker_fresh (he ▸ List.mem_flatMap.mpr
                    ⟨l, by rw [hlv']; exact List.mem_cons_of_mem _ hlrest, hidl⟩))
              have hct : ∀ id ∈ t,
                  storeRemaining
                    (st.execute_fill taker maker_id lvl.price).1._all_orders id =
                  storeRemaining st._all_orders id := by
                intro id hidt
                refine hsr id
                  (fun he => hmidnot (List.mem_append_left _ (he ▸ hidt)))
                  (fun he => hwf.taker_fresh (he ▸ List.mem_flatMap.mpr
                    ⟨lvl, hlvlmem, by rw [hords]; exact List.mem_cons_of_mem _ hidt⟩))
              have hsvrest :
                  sideView (st.execute_fill taker maker_id lvl.price).1._all_orders
                    rest = sideView st._all_orders rest :=
                sideView_congr _ _ rest hcr
              have hmt :
                  t.map (storeRemaining
                    (st.execute_fill taker maker_id lvl.price).1._all_orders) =
                  t.map (storeRemaining st._all_orders) :=
                List.map_congr_left hct
              have hsv : sideView st._all_orders (lvl :: rest) =
                  (lvl.price, o.remaining_quantity ::
                    t.map (storeRemaining st._all_orders)) ::
                    sideView st._all_orders rest := by
                show (lvl.price, lvl.orders.map (storeRemaining st._all_orders)) ::
                  sideView st._all_orders rest = _
                rw [hords, List.map_cons, hm]
              rw [hsv]
              have hstep : specFills (specAccepts taker) (fuel + 1)
                  taker.remaining_quantity
                  ((lvl.price, o.remaining_quantity ::
                    t.map (storeRemaining st._all_orders)) ::
                    sideView st._all_orders rest) =
                  (lvl.price, min taker.remaining_quantity o.remaining_quantity) ::
                  specFills (specAccepts taker) fuel
                    (taker.remaining_quantity -
                      min taker.remaining_quantity o.remaining_quantity)
                    (if o.remaining_quantity -
                        min taker.remaining_quantity o.remaining_quantity ≤ 0 then
                      (if (t.map (storeRemaining st._all_orders)).isEmpty then
                        sideView st._all_orders rest
                       else (lvl.price, t.map (storeRemaining st._all_orders)) ::
                        sideView st._all_orders rest)
                     else (lvl.price, (o.remaining_quantity -
                        min taker.remaining_quantity o.remaining_quantity) ::
                        t.map (storeRemaining st._all_orders)) ::
                        sideView st._all_orders rest) := by
                simp only [specFills]
                rw [if_neg hrem, if_neg (fun hc => hc hacc)]
              rw [hstep]
              simp only [hres.2]
              simp only [hlook.2.1]
              by_cases hfull : o.remaining_quantity ≤
                  min taker.remaining_quantity o.remaining_quantity
              · rw [if_pos ((Order.fill_is_filled_iff o _).mpr hfull)]
                rw [if_pos (sub_nonpos.mpr hfull)]
                have hob : (st.execute_fill taker maker_id lvl.price).1.book
                    (st.execute_fill taker maker_id lvl.price).2.1.symbol =
                    st.book taker.symbol := by
                  rw [hsymE]
                  exact book_of_orderbooks_eq st _ hbooks taker.symbol
                have hmemidx : maker_id ∈ (st.book taker.symbol)._orders :=
                  hwf.indexed lvl hlvlmem maker_id hmidmem
                have hpfill :
                    (o.fill (min taker.remaining_quantity o.remaining_quantity)).price
                      = some lvl.price := by
                  rw [(Order.fill_fields o _).2.2.2.2.2.1]
                  exact hoprice
                have hmatch :
                    (if (st.execute_fill taker maker_id lvl.price).2.1.side = .BUY
                      then (st.book taker.symbol).asks
                      else (st.book taker.symbol).bids) = lvl :: rest := by
                  rw [hsideE]
                  exact hlv'
                have hsidefill :
                    (o.fill (min taker.remaining_quantity o.remaining_quantity)).side
                      = (if (st.execute_fill taker maker_id lvl.price).2.1.side =
                          .BUY then OrderSide.SELL else OrderSide.BUY) := by
                  rw [(Order.fill_fields o _).2.2.2.1, hoside, hsideE]
                have hrb := removal_books
                  (st.execute_fill taker maker_id lvl.price).1
                  (st.execute_fill taker maker_id lvl.price).2.1
                  (st.book taker.symbol) maker_id
                  (o.fill (min taker.remaining_quantity o.remaining_quantity))
                  lvl t rest hob hmemidx hlook.2.1 hpfill hords hmatch hsidefill
                have hwf2 := wf_of_removed st
                  (st.execute_fill taker maker_id lvl.price).1 _ taker
                  (st.execute_fill taker maker_id lvl.price).2.1
                  lvl rest maker_id t hwf hlv' hords hlook.1 hsymE hsideE htidE
                  hrb.2.2 hrb.1 hrb.2.1
                rw [ih _ _ _ hwf2]
                rw [hrb.1, hrb.2.2]
                rw [htk, specAccepts_fill, (Order.fill_remaining taker _).1]
                rw [show (t.map (storeRemaining st._all_orders)).isEmpty =
                    t.isEmpty from by cases t <;> rfl]
                by_cases ht : t.isEmpty
                · rw [if_pos ht, if_pos ht, hsvrest]
                  simp [List.map_append]
                · rw [if_neg ht, if_neg ht]
                  rw [show sideView
                      (st.execute_fill taker maker_id lvl.price).1._all_orders
                      ({ price := lvl.price, orders := t,
                         total_quantity := sumRemaining
                          (st.execute_fill taker maker_id lvl.price).1._all_orders
                          t } :: rest) =
                      (lvl.price, t.map (storeRemaining
                        (st.execute_fill taker maker_id lvl.price).1._all_orders)) ::
                      sideView
                        (st.execute_fill taker maker_id lvl.price).1._all_orders
                        rest from rfl]
                  rw [hsvrest, hmt]
                  simp [List.map_append]
              · have hnf : (o.fill
                    (min taker.remaining_quantity o.remaining_quantity)).is_filled =
                    false := by
                  rw [Bool.eq_false_iff]
                  intro hc
                  exact hfull ((Order.fill_is_filled_iff o _).mp hc)
                rw [if_neg (by rw [hnf]; exact Bool.false_ne_true)]
                rw [if_neg (fun hc => hfull (sub_nonpos.mp hc))]
                have hwf2 := wf_after_partial_fill st taker lvl rest maker_id t o
                  hwf hlv' hords ho hoid hfull hqpos
                rw [ih _ _ _ hwf2]
                rw [matchSide_after_fill st taker o maker_id lvl.price ho hqpos]
                rw [hlv']
                have hh : storeRemaining
                    (st.execute_fill taker maker_id lvl.price).1._all_orders
                    maker_id =
                    o.remaining_quantity -
                      min taker.remaining_quantity o.remaining_quantity := by
                  unfold storeRemaining
                  rw [hlook.2.1]
                  exact (Order.fill_remaining o _).1
                rw [show sideView
                    (st.execute_fill taker maker_id lvl.price).1._all_orders
                    (lvl :: rest) =
                    (lvl.price, lvl.orders.map (storeRemaining
                      (st.execute_fill taker maker_id lvl.price).1._all_orders)) ::
                    sideView
                      (st.execute_fill taker maker_id lvl.price).1._all_orders
                      rest from rfl]
                rw [hords, List.map_cons, hh, hsvrest, hmt]
                rw [htk, specAccepts_fill, (Order.fill_remaining taker _).1]
                simp [List.map_append]


/-- **C5**: the matching loop follows the spec's price-time-priority contract.
For any reachable (well-formed) book side and taker, the (price, quantity)
trace of the fills `_match_order` produces equals the trace the spec's
matching recursion (`specFills`, written from the spec's words) produces:
the loop repeatedly takes the FIFO-head maker at the best opposite level
while the taker has remaining quantity and the level price is acceptable
(always for MARKET, price crossing for LIMIT, symmetrically for both sides),
each fill having quantity min(taker remaining, maker remaining) at the
resting level's price. -/
theorem matching_follows_price_time_priority (st : ExchangeEngine)
    (taker : Order) (fills : List Fill) (fuel : Nat) (hwf : MatchWF st taker) :
    ((st.match_loop taker fills fuel).2.2).map (fun f => (f.price, f.quantity)) =
      fills.map (fun f => (f.price, f.quantity)) ++
        specFills (specAccepts taker) fuel taker.remaining_quantity
          (sideView st._all_orders (st.matchSide taker)) :=
  match_loop_spec_aux fuel st taker fills hwf

/-- Witness for C5: a concrete book with one resting SELL maker (2 @ 100) and
a BUY LIMIT taker for 1 @ 100 satisfies the well-formedness hypothesis, and
the theorem's conclusion holds there. -/
theorem matching_follows_price_time_priority_witness :
    MatchWF { symbols := ["B"], orderbooks := [("B", { symbol := "B", bids := [], asks := [{ price := 100, orders := ["M1"], total_quantity := 2 }], _orders := ["M1"] })], account_manager := {}, _all_orders := [("M1", { order_id := "M1", session_id := "m", symbol := "B", side := .SELL, order_type := .LIMIT, price := some 100, quantity := 2, filled_quantity := 0, status := .OPEN, time_in_force := .GTC })], _fills := [], _last_prices := [], next_uuid := 0 }
      { order_id := "T1", session_id := "t", symbol := "B", side := .BUY, order_type := .LIMIT, price := some 100, quantity := 1, filled_quantity := 0, status := .OPEN, time_in_force := .GTC } ∧
    ((ExchangeEngine.match_loop { symbols := ["B"], orderbooks := [("B", { symbol := "B", bids := [], asks := [{ price := 100, orders := ["M1"], total_quantity := 2 }], _orders := ["M1"] })], account_manager := {}, _all_orders := [("M1", { order_id := "M1", session_id := "m", symbol := "B", side := .SELL, order_type := .LIMIT, price := some 100, quantity := 2, filled_quantity := 0, status := .OPEN, time_in_force := .GTC })], _fills := [], _last_prices := [], next_uuid := 0 }
        { order_id := "T1", session_id := "t", symbol := "B", side := .BUY, order_type := .LIMIT, price := some 100, quantity := 1, filled_quantity := 0, status := .OPEN, time_in_force := .GTC } [] 2).2.2).map (fun f => (f.price, f.quantity)) =
      ([] : List Fill).map (fun f => (f.price, f.quantity)) ++
        specFills (specAccepts { order_id := "T1", session_id := "t", symbol := "B", side := .BUY, order_type := .LIMIT, price := some 100, quantity := 1, filled_quantity := 0, status := .OPEN, time_in_force := .GTC }) 2
          (Order.remaining_quantity { order_id := "T1", session_id := "t", symbol := "B", side := .BUY, order_type := .LIMIT, price := some 100, quantity := 1, filled_quantity := 0, status := .OPEN, time_in_force := .GTC })
          (sideView [("M1", { order_id := "M1", session_id := "m", symbol := "B", side := .SELL, order_type := .LIMIT, price := some 100, quantity := 2, filled_quantity := 0, status := .OPEN, time_in_force := .GTC })]
            (ExchangeEngine.matchSide { symbols := ["B"], orderbooks := [("B", { symbol := "B", bids := [], asks := [{ price := 100, orders := ["M1"], total_quantity := 2 }], _orders := ["M1"] })], account_manager := {}, _all_orders := [("M1", { order_id := "M1", session_id := "m", symbol := "B", side := .SELL, order_type := .LIMIT, price := some 100, quantity := 2, filled_quantity := 0, status := .OPEN, time_in_force := .GTC })], _fills := [], _last_prices := [], next_uuid := 0 }
              { order_id := "T1", session_id := "t", symbol := "B", side := .BUY, order_type := .LIMIT, price := some 100, quantity := 1, filled_quantity := 0, status := .OPEN, time_in_force := .GTC })) := by
  have hms : ExchangeEngine.matchSide { symbols := ["B"], orderbooks := [("B", { symbol := "B", bids := [], asks := [{ price := 100, orders := ["M1"], total_quantity := 2 }], _orders := ["M1"] })], account_manager := {}, _all_orders := [("M1", { order_id := "M1", session_id := "m", symbol := "B", side := .SELL, order_type := .LIMIT, price := some 100, quantity := 2, filled_quantity := 0, status := .OPEN, time_in_force := .GTC })], _fills := [], _last_prices := [], next_uuid := 0 }
      { order_id := "T1", session_id := "t", symbol := "B", side := .BUY, order_type := .LIMIT, price := some 100, quantity := 1, filled_quantity := 0, status := .OPEN, time_in_force := .GTC } = [{ price := 100, orders := ["M1"], total_quantity := 2 }] := rfl
  have hwf : MatchWF { symbols := ["B"], orderbooks := [("B", { symbol := "B", bids := [], asks := [{ price := 100, orders := ["M1"], total_quantity := 2 }], _orders := ["M1"] })], account_manager := {}, _all_orders := [("M1", { order_id := "M1", session_id := "m", symbol := "B", side := .SELL, order_type := .LIMIT, price := some 100, quantity := 2, filled_quantity := 0, status := .OPEN, time_in_force := .GTC })], _fills := [], _last_prices := [], next_uuid := 0 }
      { order_id := "T1", session_id := "t", symbol := "B", side := .BUY, order_type := .LIMIT, price := some 100, quantity := 1, filled_quantity := 0, status := .OPEN, time_in_force := .GTC } := by
    refine ⟨?_, ?_, ?_, ?_, ?_⟩
    · intro lvl hl
      rw [hms] at hl
      have he := List.mem_singleton.mp hl
      subst he
      simp
    · rw [hms]
      simp
    · intro lvl hl id hid
      rw [hms] at hl
      have he := List.mem_singleton.mp hl
      subst he
      have hi := List.mem_singleton.mp hid
      subst hi
      refine ⟨{ order_id := "M1", session_id := "m", symbol := "B", side := .SELL, order_type := .LIMIT, price := some 100, quantity := 2, filled_quantity := 0, status := .OPEN, time_in_force := .GTC }, rfl, rfl, ?_, rfl, rfl, rfl⟩
      norm_num [Order.remaining_quantity]
    · intro lvl hl id hid
      rw [hms] at hl
      have he := List.mem_singleton.mp hl
      subst he
      have hi := List.mem_singleton.mp hid
      subst hi
      exact List.mem_singleton.mpr rfl
    · rw [hms]
      simp
  exact ⟨hwf, matching_follows_price_time_priority _ _ [] 2 hwf⟩

end CryptoExchangeSim
